import Mathlib

/-!
Verification of the LiteShift host deployment engine against its
natural-language specification.

The Lean definitions below are a shallow embedding of the TypeScript
sources:

* `src/lib/db.ts` — the SQLite row store (`deployment_queue`, `apps`,
  `app_domains` tables and the `dbHelpers` statements);
* `src/lib/deployment.ts` — the `DeploymentManager` (queue worker loop,
  `addToQueue`, `getOrCreateApp`, `deleteApp`);
* `src/routes/deploy.ts` — the socket request handlers (validation,
  log streaming);
* `src/lib/caddy.ts` — the proxy configurator (`generateCaddyfile`,
  `getAppPort`, `addDomain`, `removeDomain`);
* `src/lib/systemctl.ts` — the service supervisor adapter (`getStatus`,
  `parseSystemctlStatus` and its helpers).

External effects (SQLite statements, child processes, the file system)
are modelled by explicit state passing and by outcome oracles passed as
arguments; JavaScript numbers that the code forces to 32-bit integers
are modelled as `Int` with explicit reduction modulo `2 ^ 32`.
-/

namespace LiteShift

/-! ## Queue rows and status updates (`src/lib/db.ts`)

`deployment_queue` row: id, app_name, type, status, options, logs,
created_at, started_at, completed_at, error_message.  Timestamps are
modelled as `Nat` ticks. -/

inductive QStatus where
  | queued
  | building
  | completed
  | failed
deriving DecidableEq, Repr

structure QueueRow where
  id : Nat
  app_name : String
  qtype : String
  options : String
  status : QStatus
  logs : String
  created_at : Nat
  started_at : Option Nat
  completed_at : Option Nat
  error_message : Option String
deriving DecidableEq, Repr

/-- JavaScript truthiness of the optional `errorMessage` argument of
`updateQueueStatus` (db.ts 204): `undefined` and `""` are falsy. -/
def truthyMsg : Option String → Bool
  | none => false
  | some m => !(m == "")

/-- One row under `dbHelpers.updateQueueStatus` (db.ts 204-217): `building`
sets `started_at`; `completed`/`failed` set `completed_at` and, when a
truthy message is given, `error_message`; any other status writes only the
status column. -/
def applyStatusUpdate (now : Nat) (s : QStatus) (err : Option String) (r : QueueRow) : QueueRow :=
  if s = QStatus.building then
    { r with status := s, started_at := some now }
  else if s = QStatus.completed ∨ s = QStatus.failed then
    if truthyMsg err then
      { r with status := s, completed_at := some now, error_message := err }
    else
      { r with status := s, completed_at := some now }
  else
    { r with status := s }

/-- `dbHelpers.updateQueueStatus` over the whole table: the SQL `UPDATE …
WHERE id = ?` touches exactly the rows whose id matches. -/
def updateQueueStatus (now : Nat) (rows : List QueueRow) (i : Nat) (s : QStatus)
    (err : Option String) : List QueueRow :=
  rows.map fun r => if r.id = i then applyStatusUpdate now s err r else r

/-- Outcome of one pipeline run, as `processQueue` (deployment.ts 104-141)
observes it: either the internal deploy returned `success: true`, or it
returned a failure result / threw — both failure paths reach
`updateQueueStatus(id, 'failed', message)`. -/
inductive PipelineOutcome where
  | success
  | failure (msg : String)
deriving DecidableEq, Repr

def terminalStatus : PipelineOutcome → QStatus
  | PipelineOutcome.success => QStatus.completed
  | PipelineOutcome.failure _ => QStatus.failed

def terminalMsg : PipelineOutcome → Option String
  | PipelineOutcome.success => none
  | PipelineOutcome.failure m => some m

/-- Row predicate of `dbHelpers.getQueuedItems` (`WHERE status = 'queued'`). -/
def isQueued (r : QueueRow) : Bool := r.status == QStatus.queued

/-- `dbHelpers.getQueuedItems` (db.ts 233-234) runs
`SELECT * FROM deployment_queue WHERE status = ? ORDER BY created_at ASC`.
SQL fixes the returned multiset and that it is sorted by `created_at`;
the relative order of rows with equal `created_at` is not specified, so the
result is modelled as a relation: any permutation of the queued rows that
is sorted by `created_at`. -/
abbrev getQueuedItemsResult (rows batch : List QueueRow) : Prop :=
  batch.Perm (rows.filter isQueued) ∧
    batch.Pairwise fun a b => a.created_at ≤ b.created_at

/-- The drain loop of `DeploymentManager.processQueue` (deployment.ts
96-151) over one fetched batch: for each item in order, mark it
`building`, run the pipeline (the `outcome` oracle stands for
`deployFromGitInternal` / `deployFromFileInternal` and the surrounding
`try`/`catch`), then mark it `completed` or `failed`.  Returns the final
table and the ordered trace of `updateQueueStatus` calls the loop issued. -/
def processQueue (now : Nat) (outcome : Nat → PipelineOutcome) :
    List QueueRow → List QueueRow → List QueueRow × List (Nat × QStatus)
  | rows, [] => (rows, [])
  | rows, item :: rest =>
    let rows1 := updateQueueStatus now rows item.id QStatus.building none
    let o := outcome item.id
    let rows2 := updateQueueStatus now rows1 item.id (terminalStatus o) (terminalMsg o)
    let next := processQueue now outcome rows2 rest
    (next.1, (item.id, QStatus.building) :: (item.id, terminalStatus o) :: next.2)

/-- The status updates the loop issued for one entry id, in order. -/
def updatesFor (i : Nat) (tr : List (Nat × QStatus)) : List QStatus :=
  (tr.filter fun u => u.1 == i).map Prod.snd

/-- The row a given id denotes (`SELECT … WHERE id = ?`). -/
def rowOf (rows : List QueueRow) (i : Nat) : Option QueueRow :=
  rows.find? fun r => r.id == i

/-- The trace `processQueue` emits, computed directly from the batch. -/
def batchTrace (outcome : Nat → PipelineOutcome) : List QueueRow → List (Nat × QStatus)
  | [] => []
  | b :: t =>
    (b.id, QStatus.building) :: (b.id, terminalStatus (outcome b.id)) :: batchTrace outcome t

theorem applyStatusUpdate_id (now : Nat) (s : QStatus) (err : Option String) (r : QueueRow) :
    (applyStatusUpdate now s err r).id = r.id := by
  unfold applyStatusUpdate
  split
  · rfl
  · split
    · split <;> rfl
    · rfl

theorem rowOf_updateQueueStatus_ne (now : Nat) (s : QStatus) (err : Option String)
    (j i : Nat) (h : j ≠ i) (rows : List QueueRow) :
    rowOf (updateQueueStatus now rows j s err) i = rowOf rows i := by
  induction rows with
  | nil => rfl
  | cons r t ih =>
    by_cases hr : r.id = j
    · have hid : ((applyStatusUpdate now s err r).id == i) = false := by
        rw [applyStatusUpdate_id, hr]
        simp [h]
      have hid' : (r.id == i) = false := by
        rw [hr]; simp [h]
      simp only [updateQueueStatus, List.map_cons, if_pos hr, rowOf] at *
      rw [List.find?_cons_of_neg _ (by simp [hid]), List.find?_cons_of_neg _ (by simp [hid'])]
      exact ih
    · simp only [updateQueueStatus, List.map_cons, if_neg hr, rowOf] at *
      by_cases hri : r.id = i
      · rw [List.find?_cons_of_pos _ (by simp [hri]), List.find?_cons_of_pos _ (by simp [hri])]
      · rw [List.find?_cons_of_neg _ (by simp [hri]), List.find?_cons_of_neg _ (by simp [hri])]
        exact ih

theorem processQueue_trace (now : Nat) (outcome : Nat → PipelineOutcome)
    (batch : List QueueRow) : ∀ rows,
    (processQueue now outcome rows batch).2 = batchTrace outcome batch := by
  induction batch with
  | nil => intro rows; rfl
  | cons b t ih =>
    intro rows
    simp only [processQueue, batchTrace]
    rw [ih]

theorem batchTrace_append (outcome : Nat → PipelineOutcome) (l₁ l₂ : List QueueRow) :
    batchTrace outcome (l₁ ++ l₂) = batchTrace outcome l₁ ++ batchTrace outcome l₂ := by
  induction l₁ with
  | nil => rfl
  | cons b t ih => simp [batchTrace, ih]

theorem terminalStatus_ne_queued (o : PipelineOutcome) :
    terminalStatus o ≠ QStatus.queued := by
  cases o <;> simp [terminalStatus]

theorem updatesFor_append (i : Nat) (t₁ t₂ : List (Nat × QStatus)) :
    updatesFor i (t₁ ++ t₂) = updatesFor i t₁ ++ updatesFor i t₂ := by
  simp [updatesFor, List.filter_append]

theorem updatesFor_batchTrace_not_mem (outcome : Nat → PipelineOutcome) (i : Nat)
    (batch : List QueueRow) (h : ∀ b ∈ batch, b.id ≠ i) :
    updatesFor i (batchTrace outcome batch) = [] := by
  induction batch with
  | nil => rfl
  | cons b t ih =>
    have hb : b.id ≠ i := h b (List.mem_cons_self b t)
    simp only [batchTrace, updatesFor, List.filter_cons]
    have : (b.id == i) = false := by simp [hb]
    simp only [this, Bool.false_eq_true, if_false]
    exact ih fun x hx => h x (List.mem_cons_of_mem b hx)

theorem processQueue_rows_not_mem (now : Nat) (outcome : Nat → PipelineOutcome) (i : Nat)
    (batch : List QueueRow) (h : ∀ b ∈ batch, b.id ≠ i) : ∀ rows,
    rowOf (processQueue now outcome rows batch).1 i = rowOf rows i := by
  induction batch with
  | nil => intro rows; rfl
  | cons b t ih =>
    intro rows
    have hb : b.id ≠ i := h b (List.mem_cons_self b t)
    simp only [processQueue]
    rw [ih fun x hx => h x (List.mem_cons_of_mem b hx)]
    rw [rowOf_updateQueueStatus_ne _ _ _ _ _ hb, rowOf_updateQueueStatus_ne _ _ _ _ _ hb]

theorem updatesFor_batchTrace_single (outcome : Nat → PipelineOutcome) (i : Nat)
    (s t : List QueueRow) (b : QueueRow) (hb : b.id = i)
    (hs : ∀ x ∈ s, x.id ≠ i) (ht : ∀ x ∈ t, x.id ≠ i) :
    updatesFor i (batchTrace outcome (s ++ b :: t)) =
      [QStatus.building, terminalStatus (outcome i)] := by
  rw [batchTrace_append, updatesFor_append, updatesFor_batchTrace_not_mem outcome i s hs]
  have hbi : (b.id == i) = true := by simp [hb]
  have h0 : updatesFor i (batchTrace outcome t) = [] :=
    updatesFor_batchTrace_not_mem outcome i t ht
  simp only [updatesFor] at h0 ⊢
  simp only [batchTrace, List.filter_cons, hbi, if_true, List.map_cons, List.nil_append]
  rw [h0, hb]

theorem not_queued_in_batchTrace (outcome : Nat → PipelineOutcome)
    (batch : List QueueRow) (i : Nat) :
    (i, QStatus.queued) ∉ batchTrace outcome batch := by
  induction batch with
  | nil => simp [batchTrace]
  | cons b t ih =>
    simp only [batchTrace, List.mem_cons]
    rintro (h | h | h)
    · exact absurd (congrArg Prod.snd h) (by simp)
    · exact absurd (congrArg Prod.snd h).symm (by simpa using terminalStatus_ne_queued (outcome b.id))
    · exact ih h

theorem batch_ids_nodup (rows batch : List QueueRow)
    (hnd : (rows.map QueueRow.id).Nodup) (hp : batch.Perm (rows.filter isQueued)) :
    (batch.map QueueRow.id).Nodup := by
  have hsub : ((rows.filter isQueued).map QueueRow.id).Sublist (rows.map QueueRow.id) :=
    (List.filter_sublist rows).map QueueRow.id
  exact ((hp.map QueueRow.id).nodup_iff).mpr (hnd.sublist hsub)

theorem exists_split_of_mem_nodup (batch : List QueueRow) (i : Nat)
    (hnd : (batch.map QueueRow.id).Nodup) (b : QueueRow) (hbm : b ∈ batch) (hbi : b.id = i) :
    ∃ s t, batch = s ++ b :: t ∧ (∀ x ∈ s, x.id ≠ i) ∧ (∀ x ∈ t, x.id ≠ i) := by
  obtain ⟨s, t, rfl⟩ := List.append_of_mem hbm
  refine ⟨s, t, rfl, ?_, ?_⟩
  · intro x hx hxi
    have hmid : ((s ++ b :: t).map QueueRow.id).Nodup := hnd
    rw [List.map_append, List.map_cons, List.nodup_middle, List.nodup_cons] at hmid
    exact hmid.1 (by
      rw [hbi, ← hxi]
      exact List.mem_append_left _ (List.mem_map_of_mem QueueRow.id hx))
  · intro x hx hxi
    have hmid : ((s ++ b :: t).map QueueRow.id).Nodup := hnd
    rw [List.map_append, List.map_cons, List.nodup_middle, List.nodup_cons] at hmid
    exact hmid.1 (by
      rw [hbi, ← hxi]
      exact List.mem_append_right _ (List.mem_map_of_mem QueueRow.id hx))

theorem rowOf_eq_of_mem (rows : List QueueRow) (b : QueueRow)
    (hnd : (rows.map QueueRow.id).Nodup) (hb : b ∈ rows) :
    rowOf rows b.id = some b := by
  induction rows with
  | nil => cases hb
  | cons r t ih =>
    rw [List.map_cons, List.nodup_cons] at hnd
    rcases List.mem_cons.mp hb with rfl | hbt
    · simp [rowOf, List.find?_cons_of_pos]
    · have hne : (r.id == b.id) = false := by
        have : r.id ≠ b.id := fun h => hnd.1 (h ▸ List.mem_map_of_mem QueueRow.id hbt)
        simp [this]
      simp only [rowOf] at ih ⊢
      rw [List.find?_cons_of_neg _ (by simp [hne])]
      exact ih hnd.2 hbt

/-- Claim C1: across the worker loop's updates, a queue entry's status moves
only along `queued → building → completed` or `queued → building → failed`:
the loop never writes `queued`; an entry it touches was `queued` and gets
exactly the updates `[building, completed]` or `[building, failed]`; an
entry already `completed` or `failed` is never updated again (it is not in
the fetched batch, so its row is unchanged). -/
theorem queueStatusMonotonic (now : Nat) (outcome : Nat → PipelineOutcome)
    (rows batch : List QueueRow) (i : Nat)
    (hnd : (rows.map QueueRow.id).Nodup)
    (hq : getQueuedItemsResult rows batch) :
    ((i, QStatus.queued) ∉ (processQueue now outcome rows batch).2) ∧
    ((updatesFor i (processQueue now outcome rows batch).2 = [] ∧
        rowOf (processQueue now outcome rows batch).1 i = rowOf rows i) ∨
      ((rowOf rows i).map QueueRow.status = some QStatus.queued ∧
        (updatesFor i (processQueue now outcome rows batch).2 =
            [QStatus.building, QStatus.completed] ∨
          updatesFor i (processQueue now outcome rows batch).2 =
            [QStatus.building, QStatus.failed]))) ∧
    (((rowOf rows i).map QueueRow.status = some QStatus.completed ∨
        (rowOf rows i).map QueueRow.status = some QStatus.failed) →
      updatesFor i (processQueue now outcome rows batch).2 = [] ∧
        rowOf (processQueue now outcome rows batch).1 i = rowOf rows i) := by
  obtain ⟨hp, hsorted⟩ := hq
  have hbnd := batch_ids_nodup rows batch hnd hp
  have hmain :
      (updatesFor i (processQueue now outcome rows batch).2 = [] ∧
        rowOf (processQueue now outcome rows batch).1 i = rowOf rows i) ∨
      ((rowOf rows i).map QueueRow.status = some QStatus.queued ∧
        (updatesFor i (processQueue now outcome rows batch).2 =
            [QStatus.building, QStatus.completed] ∨
          updatesFor i (processQueue now outcome rows batch).2 =
            [QStatus.building, QStatus.failed])) := by
    by_cases hex : ∃ b ∈ batch, b.id = i
    · obtain ⟨b, hbm, hbi⟩ := hex
      obtain ⟨s, t, rfl, hs, ht⟩ := exists_split_of_mem_nodup batch i hbnd b hbm hbi
      right
      have hbf : b ∈ rows.filter isQueued := (hp.mem_iff).mp hbm
      have hbrows : b ∈ rows := (List.mem_filter.mp hbf).1
      have hbq : b.status = QStatus.queued := by
        have := (List.mem_filter.mp hbf).2
        simpa [isQueued] using this
      have hro : rowOf rows i = some b := hbi ▸ rowOf_eq_of_mem rows b hnd hbrows
      refine ⟨by rw [hro]; simp [hbq], ?_⟩
      rw [processQueue_trace,
        updatesFor_batchTrace_single outcome i s t b hbi hs ht]
      cases houtcome : outcome i <;> simp [terminalStatus]
    · push_neg at hex
      left
      rw [processQueue_trace]
      exact ⟨updatesFor_batchTrace_not_mem outcome i batch hex,
        processQueue_rows_not_mem now outcome i batch hex rows⟩
  refine ⟨by rw [processQueue_trace]; exact not_queued_in_batchTrace outcome batch i, hmain, ?_⟩
  intro hterm
  rcases hmain with h | ⟨hqd, _⟩
  · exact h
  · rcases hterm with h2 | h2 <;> rw [hqd] at h2 <;> exact absurd (Option.some.inj h2) (by simp)

/-- Witness for C1: a two-row table (one `queued` entry, one already
`completed`) with the singleton batch the SQL query returns; the theorem is
applied at both entry ids with its hypotheses discharged by computation. -/
theorem queueStatusMonotonic_witness :
    ((([⟨1, "alpha", "git", "{}", QStatus.queued, "", 3, none, none, none⟩,
        ⟨2, "beta", "file", "{}", QStatus.completed, "", 1, none, none, none⟩] :
          List QueueRow).map QueueRow.id).Nodup ∧
      getQueuedItemsResult
        [⟨1, "alpha", "git", "{}", QStatus.queued, "", 3, none, none, none⟩,
          ⟨2, "beta", "file", "{}", QStatus.completed, "", 1, none, none, none⟩]
        [⟨1, "alpha", "git", "{}", QStatus.queued, "", 3, none, none, none⟩]) ∧
    (((1, QStatus.queued) ∉
        (processQueue 9 (fun _ => PipelineOutcome.failure "boom")
          [⟨1, "alpha", "git", "{}", QStatus.queued, "", 3, none, none, none⟩,
            ⟨2, "beta", "file", "{}", QStatus.completed, "", 1, none, none, none⟩]
          [⟨1, "alpha", "git", "{}", QStatus.queued, "", 3, none, none, none⟩]).2) ∧
      ((updatesFor 1
            (processQueue 9 (fun _ => PipelineOutcome.failure "boom")
              [⟨1, "alpha", "git", "{}", QStatus.queued, "", 3, none, none, none⟩,
                ⟨2, "beta", "file", "{}", QStatus.completed, "", 1, none, none, none⟩]
              [⟨1, "alpha", "git", "{}", QStatus.queued, "", 3, none, none, none⟩]).2 = [] ∧
          rowOf
              (processQueue 9 (fun _ => PipelineOutcome.failure "boom")
                [⟨1, "alpha", "git", "{}", QStatus.queued, "", 3, none, none, none⟩,
                  ⟨2, "beta", "file", "{}", QStatus.completed, "", 1, none, none, none⟩]
                [⟨1, "alpha", "git", "{}", QStatus.queued, "", 3, none, none, none⟩]).1 1 =
            rowOf
              [⟨1, "alpha", "git", "{}", QStatus.queued, "", 3, none, none, none⟩,
                ⟨2, "beta", "file", "{}", QStatus.completed, "", 1, none, none, none⟩] 1) ∨
        ((rowOf
              [⟨1, "alpha", "git", "{}", QStatus.queued, "", 3, none, none, none⟩,
                ⟨2, "beta", "file", "{}", QStatus.completed, "", 1, none, none, none⟩] 1).map
              QueueRow.status = some QStatus.queued ∧
          (updatesFor 1
              (processQueue 9 (fun _ => PipelineOutcome.failure "boom")
                [⟨1, "alpha", "git", "{}", QStatus.queued, "", 3, none, none, none⟩,
                  ⟨2, "beta", "file", "{}", QStatus.completed, "", 1, none, none, none⟩]
                [⟨1, "alpha", "git", "{}", QStatus.queued, "", 3, none, none, none⟩]).2 =
              [QStatus.building, QStatus.completed] ∨
            updatesFor 1
                (processQueue 9 (fun _ => PipelineOutcome.failure "boom")
                  [⟨1, "alpha", "git", "{}", QStatus.queued, "", 3, none, none, none⟩,
                    ⟨2, "beta", "file", "{}", QStatus.completed, "", 1, none, none, none⟩]
                  [⟨1, "alpha", "git", "{}", QStatus.queued, "", 3, none, none, none⟩]).2 =
              [QStatus.building, QStatus.failed])))) ∧
    (((rowOf
          [⟨1, "alpha", "git", "{}", QStatus.queued, "", 3, none, none, none⟩,
            ⟨2, "beta", "file", "{}", QStatus.completed, "", 1, none, none, none⟩] 2).map
          QueueRow.status = some QStatus.completed ∨
        (rowOf
            [⟨1, "alpha", "git", "{}", QStatus.queued, "", 3, none, none, none⟩,
              ⟨2, "beta", "file", "{}", QStatus.completed, "", 1, none, none, none⟩] 2).map
          QueueRow.status = some QStatus.failed) →
      updatesFor 2
          (processQueue 9 (fun _ => PipelineOutcome.failure "boom")
            [⟨1, "alpha", "git", "{}", QStatus.queued, "", 3, none, none, none⟩,
              ⟨2, "beta", "file", "{}", QStatus.completed, "", 1, none, none, none⟩]
            [⟨1, "alpha", "git", "{}", QStatus.queued, "", 3, none, none, none⟩]).2 = [] ∧
        rowOf
            (processQueue 9 (fun _ => PipelineOutcome.failure "boom")
              [⟨1, "alpha", "git", "{}", QStatus.queued, "", 3, none, none, none⟩,
                ⟨2, "beta", "file", "{}", QStatus.completed, "", 1, none, none, none⟩]
              [⟨1, "alpha", "git", "{}", QStatus.queued, "", 3, none, none, none⟩]).1 2 =
          rowOf
            [⟨1, "alpha", "git", "{}", QStatus.queued, "", 3, none, none, none⟩,
              ⟨2, "beta", "file", "{}", QStatus.completed, "", 1, none, none, none⟩] 2) :=
  ⟨⟨by decide, by decide⟩,
    ⟨(queueStatusMonotonic 9 (fun _ => PipelineOutcome.failure "boom") _ _ 1
        (by decide) (by decide)).1,
      (queueStatusMonotonic 9 (fun _ => PipelineOutcome.failure "boom") _ _ 1
        (by decide) (by decide)).2.1⟩,
    (queueStatusMonotonic 9 (fun _ => PipelineOutcome.failure "boom") _ _ 2
      (by decide) (by decide)).2.2⟩

theorem exists_split_lt (batch : List QueueRow) (A B : QueueRow)
    (hsorted : batch.Pairwise fun a b => a.created_at ≤ b.created_at)
    (hA : A ∈ batch) (hB : B ∈ batch) (hlt : A.created_at < B.created_at) :
    ∃ s u₁ u₂, batch = s ++ A :: (u₁ ++ B :: u₂) := by
  induction batch with
  | nil => cases hA
  | cons h t ih =>
    rw [List.pairwise_cons] at hsorted
    rcases List.mem_cons.mp hA with rfl | hAt
    · have hBt : B ∈ t := by
        rcases List.mem_cons.mp hB with rfl | hBt
        · exact absurd hlt (lt_irrefl _)
        · exact hBt
      obtain ⟨u₁, u₂, rfl⟩ := List.append_of_mem hBt
      exact ⟨[], u₁, u₂, rfl⟩
    · rcases List.mem_cons.mp hB with rfl | hBt
      · exact absurd (lt_of_lt_of_le hlt (hsorted.1 A hAt)) (lt_irrefl _)
      · obtain ⟨s, u₁, u₂, heq⟩ := ih hsorted.2 hAt hBt
        exact ⟨h :: s, u₁, u₂, by rw [heq]; rfl⟩

/-- Counterexample to claim C7: `getQueuedItems` orders only by `created_at`
(db.ts 233-234), so for two queued entries created within the same timestamp
granularity (equal `created_at`, ids 1 then 2) the batch `[entry 2, entry 1]`
is a legal query result — it is a permutation of the queued rows sorted by
`created_at` — and the worker then marks entry 2 `building` and completes it
before it marks entry 1 `building`, violating first-in-first-out. -/
theorem fifoTieCounterexample :
    getQueuedItemsResult
      [⟨1, "alpha", "git", "{}", QStatus.queued, "", 50, none, none, none⟩,
        ⟨2, "beta", "git", "{}", QStatus.queued, "", 50, none, none, none⟩]
      [⟨2, "beta", "git", "{}", QStatus.queued, "", 50, none, none, none⟩,
        ⟨1, "alpha", "git", "{}", QStatus.queued, "", 50, none, none, none⟩] ∧
    (⟨1, "alpha", "git", "{}", QStatus.queued, "", 50, none, none, none⟩ :
        QueueRow).created_at =
      (⟨2, "beta", "git", "{}", QStatus.queued, "", 50, none, none, none⟩ :
        QueueRow).created_at ∧
    (processQueue 60 (fun _ => PipelineOutcome.success)
        [⟨1, "alpha", "git", "{}", QStatus.queued, "", 50, none, none, none⟩,
          ⟨2, "beta", "git", "{}", QStatus.queued, "", 50, none, none, none⟩]
        [⟨2, "beta", "git", "{}", QStatus.queued, "", 50, none, none, none⟩,
          ⟨1, "alpha", "git", "{}", QStatus.queued, "", 50, none, none, none⟩]).2 =
      [(2, QStatus.building), (2, QStatus.completed),
        (1, QStatus.building), (1, QStatus.completed)] := by
  refine ⟨⟨?_, ?_⟩, rfl, rfl⟩
  · exact (List.Perm.swap _ _ _)
  · decide

/-- Claim C7 (amended): within one worker-loop batch, entries are processed
sequentially in `created_at` order; when entry A has a strictly earlier
`created_at` than entry B (both queued), every legal query result drains A
completely — marks it `building` and writes its terminal status — before it
marks B `building`.  For entries created within the same timestamp
granularity the order is not specified (see `fifoTieCounterexample`). -/
theorem fifoStrictTimestamps (now : Nat) (outcome : Nat → PipelineOutcome)
    (rows batch : List QueueRow) (A B : QueueRow)
    (hq : getQueuedItemsResult rows batch)
    (hA : A ∈ rows) (hAq : A.status = QStatus.queued)
    (hB : B ∈ rows) (hBq : B.status = QStatus.queued)
    (hlt : A.created_at < B.created_at) :
    ∃ t₁ t₂ t₃,
      (processQueue now outcome rows batch).2 =
        t₁ ++ (A.id, QStatus.building) :: (A.id, terminalStatus (outcome A.id)) ::
          (t₂ ++ (B.id, QStatus.building) :: (B.id, terminalStatus (outcome B.id)) :: t₃) := by
  obtain ⟨hp, hsorted⟩ := hq
  have hAb : A ∈ batch :=
    (hp.mem_iff).mpr (List.mem_filter.mpr ⟨hA, by simp [isQueued, hAq]⟩)
  have hBb : B ∈ batch :=
    (hp.mem_iff).mpr (List.mem_filter.mpr ⟨hB, by simp [isQueued, hBq]⟩)
  obtain ⟨s, u₁, u₂, rfl⟩ := exists_split_lt batch A B hsorted hAb hBb hlt
  refine ⟨batchTrace outcome s, batchTrace outcome u₁, batchTrace outcome u₂, ?_⟩
  rw [processQueue_trace]
  simp [batchTrace, batchTrace_append]

/-- Witness for the amended C7: two queued entries with strictly increasing
timestamps; the theorem applies and yields the ordered trace decomposition. -/
theorem fifoStrictTimestamps_witness :
    ∃ t₁ t₂ t₃,
      (processQueue 60 (fun _ => PipelineOutcome.success)
          [⟨1, "alpha", "git", "{}", QStatus.queued, "", 10, none, none, none⟩,
            ⟨2, "beta", "git", "{}", QStatus.queued, "", 20, none, none, none⟩]
          [⟨1, "alpha", "git", "{}", QStatus.queued, "", 10, none, none, none⟩,
            ⟨2, "beta", "git", "{}", QStatus.queued, "", 20, none, none, none⟩]).2 =
        t₁ ++ ((⟨1, "alpha", "git", "{}", QStatus.queued, "", 10, none, none, none⟩ :
                QueueRow).id, QStatus.building) ::
            ((⟨1, "alpha", "git", "{}", QStatus.queued, "", 10, none, none, none⟩ :
                QueueRow).id,
              terminalStatus ((fun _ => PipelineOutcome.success)
                (⟨1, "alpha", "git", "{}", QStatus.queued, "", 10, none, none, none⟩ :
                    QueueRow).id)) ::
          (t₂ ++ ((⟨2, "beta", "git", "{}", QStatus.queued, "", 20, none, none, none⟩ :
                  QueueRow).id, QStatus.building) ::
              ((⟨2, "beta", "git", "{}", QStatus.queued, "", 20, none, none, none⟩ :
                  QueueRow).id,
                terminalStatus ((fun _ => PipelineOutcome.success)
                  (⟨2, "beta", "git", "{}", QStatus.queued, "", 20, none, none, none⟩ :
                      QueueRow).id)) :: t₃) :=
  fifoStrictTimestamps 60 (fun _ => PipelineOutcome.success) _ _ _ _
    ⟨List.Perm.refl _, by decide⟩ (by decide) rfl (by decide) rfl (by decide)

/-! ## Deployment submission handlers (`src/routes/deploy.ts` 5-91,
`src/lib/deployment.ts` 62-86, 154-160)

The handlers validate the request and, only when validation passes, call
`DeploymentManager.deployFromGit` / `deployFromFile`, each of which is a
direct call to `addToQueue`.  The queue table plus SQLite's autoincrement
counter form the engine state. -/

structure EngineState where
  rows : List QueueRow
  nextId : Nat
deriving DecidableEq, Repr

/-- JavaScript truthiness of an optional string field: a missing field and
the empty string are falsy. -/
def truthyStr : Option String → Bool
  | none => false
  | some s => !(s == "")

/-- JavaScript truthiness of the optional `fileBuffer` field: any `Buffer`
object is truthy, a missing field is falsy. -/
def truthyBuf : Option (List Nat) → Bool
  | none => false
  | some _ => true

structure GitDeployData where
  appName : Option String
  repository : Option String
  branch : Option String
  buildCommand : Option String
  installCommand : Option String
  startCommand : Option String
  runtime : Option String
  envVars : List (String × String)
deriving DecidableEq, Repr

structure FileDeployData where
  appName : Option String
  startCommand : Option String
  buildCommand : Option String
  installCommand : Option String
  runtime : Option String
  envVars : List (String × String)
  fileBuffer : Option (List Nat)
deriving DecidableEq, Repr

structure HandlerResponse where
  success : Bool
  error : Option String
deriving DecidableEq, Repr

/-- Model of `JSON.stringify(options)` in `addToQueue` (deployment.ts 64):
the claims never inspect the serialized text, only that it is stored. -/
def encodeGitOptions (d : GitDeployData) : String :=
  String.intercalate "\x1f"
    [d.appName.getD "", d.repository.getD "", d.branch.getD "",
      d.buildCommand.getD "", d.installCommand.getD "", d.startCommand.getD "",
      d.runtime.getD ""]

/-- Model of `JSON.stringify(options)` for a file deployment. -/
def encodeFileOptions (d : FileDeployData) : String :=
  String.intercalate "\x1f"
    [d.appName.getD "", d.buildCommand.getD "", d.installCommand.getD "",
      d.startCommand.getD "", d.runtime.getD ""]

/-- `DeploymentManager.addToQueue` (deployment.ts 62-86):
`dbHelpers.createQueueItem` inserts a new `deployment_queue` row with status
`queued` and the autoincrement id; the temporary-file write and the
worker-loop nudge do not change the queue table. -/
def addToQueue (now : Nat) (st : EngineState) (appName qtype optionsJson : String) :
    EngineState × Nat :=
  ({ rows := st.rows ++
        [{ id := st.nextId, app_name := appName, qtype := qtype,
            options := optionsJson, status := QStatus.queued, logs := "",
            created_at := now, started_at := none, completed_at := none,
            error_message := none }],
      nextId := st.nextId + 1 },
    st.nextId)

/-- The `deploy:from-git` handler (deploy.ts 5-48): rejects when `appName`,
`repository` or `startCommand` is falsy, otherwise enqueues through
`DeploymentManager.deployFromGit` → `addToQueue`. -/
def deployFromGit (now : Nat) (st : EngineState) (d : GitDeployData) :
    HandlerResponse × EngineState :=
  if !truthyStr d.appName || !truthyStr d.repository || !truthyStr d.startCommand then
    ({ success := false, error := some "appName, repository, and startCommand are required" },
      st)
  else
    let r := addToQueue now st (d.appName.getD "") "git" (encodeGitOptions d)
    ({ success := true, error := none }, r.1)

/-- The `deploy:from-file` handler (deploy.ts 51-91): rejects when `appName`,
`startCommand` or `fileBuffer` is falsy, otherwise enqueues through
`DeploymentManager.deployFromFile` → `addToQueue`. -/
def deployFromFile (now : Nat) (st : EngineState) (d : FileDeployData) :
    HandlerResponse × EngineState :=
  if !truthyStr d.appName || !truthyStr d.startCommand || !truthyBuf d.fileBuffer then
    ({ success := false, error := some "appName, startCommand, and fileBuffer are required" },
      st)
  else
    let r := addToQueue now st (d.appName.getD "") "file" (encodeFileOptions d)
    ({ success := true, error := none }, r.1)

/-- Claim C3: a submit request (git or file kind) with `appName` or
`startCommand` absent — or a git request with `repository` absent, or a file
request with the file payload absent — is rejected synchronously with a
validation failure, and `addToQueue` is never reached: the `deployment_queue`
state is returned unchanged. -/
theorem submitValidationRejects (now : Nat) (st : EngineState)
    (g : GitDeployData) (f : FileDeployData)
    (hg : g.appName = none ∨ g.startCommand = none ∨ g.repository = none)
    (hf : f.appName = none ∨ f.startCommand = none ∨ f.fileBuffer = none) :
    (deployFromGit now st g).1.success = false ∧
    (deployFromGit now st g).1.error ≠ none ∧
    (deployFromGit now st g).2 = st ∧
    (deployFromFile now st f).1.success = false ∧
    (deployFromFile now st f).1.error ≠ none ∧
    (deployFromFile now st f).2 = st := by
  have hgc : (!truthyStr g.appName || !truthyStr g.repository ||
      !truthyStr g.startCommand) = true := by
    rcases hg with h | h | h <;> simp [h, truthyStr]
  have hfc : (!truthyStr f.appName || !truthyStr f.startCommand ||
      !truthyBuf f.fileBuffer) = true := by
    rcases hf with h | h | h <;> simp [h, truthyStr, truthyBuf]
  refine ⟨?_, ?_, ?_, ?_, ?_, ?_⟩ <;>
    simp [deployFromGit, deployFromFile, hgc, hfc]

/-- Witness for C3: a git request missing `startCommand` and a file request
missing its payload are both rejected and leave the queue state unchanged. -/
theorem submitValidationRejects_witness :
    (deployFromGit 5 ⟨[], 1⟩
        ⟨some "demo", some "https://example.com/demo.git", none, none, none,
          none, none, []⟩).1.success = false ∧
    (deployFromGit 5 ⟨[], 1⟩
        ⟨some "demo", some "https://example.com/demo.git", none, none, none,
          none, none, []⟩).1.error ≠ none ∧
    (deployFromGit 5 ⟨[], 1⟩
        ⟨some "demo", some "https://example.com/demo.git", none, none, none,
          none, none, []⟩).2 = ⟨[], 1⟩ ∧
    (deployFromFile 5 ⟨[], 1⟩
        ⟨some "demo", some "node index.js", none, none, none, [], none⟩).1.success = false ∧
    (deployFromFile 5 ⟨[], 1⟩
        ⟨some "demo", some "node index.js", none, none, none, [], none⟩).1.error ≠ none ∧
    (deployFromFile 5 ⟨[], 1⟩
        ⟨some "demo", some "node index.js", none, none, none, [], none⟩).2 = ⟨[], 1⟩ :=
  submitValidationRejects 5 ⟨[], 1⟩
    ⟨some "demo", some "https://example.com/demo.git", none, none, none, none, none, []⟩
    ⟨some "demo", some "node index.js", none, none, none, [], none⟩
    (Or.inr (Or.inl rfl)) (Or.inr (Or.inr rfl))

/-! ## Application deletion (`src/lib/deployment.ts` 579-607)

`deleteApp` looks the application up (errors when missing), then: tries to
delete the systemd service (failure logged and swallowed), tries to remove
the deploy directory (failure logged and swallowed), deletes the database
row (not guarded — a failure aborts), regenerates the Caddyfile and reloads
Caddy (both `await`ed without a guard — a failure aborts).  There is no
environment-file removal step in this function. -/

inductive DeleteStep where
  | deleteService
  | removeDirectory
  | removeEnvFile
  | dbDeleteApp
  | caddyWrite
  | caddyReload
deriving DecidableEq, Repr

/-- Outcome oracles for the external effects of `deleteApp`.  The outcomes
of the service deletion and the directory removal are recorded but never
consulted: the source swallows those failures. -/
structure DeleteEnv where
  appExists : Bool
  serviceDeleteOk : Bool
  removeDirOk : Bool
  dbDeleteOk : Bool
  caddyWriteOk : Bool
  caddyReloadOk : Bool
deriving DecidableEq, Repr

/-- `DeploymentManager.deleteApp`: returns the error that aborted the
operation (`none` on success) and the ordered trace of attempted steps. -/
def deleteApp (env : DeleteEnv) : Option String × List DeleteStep :=
  if env.appExists = false then
    (some "App not found", [])
  else
    let tr := [DeleteStep.deleteService, DeleteStep.removeDirectory]
    if env.dbDeleteOk = false then
      (some "database delete failed", tr ++ [DeleteStep.dbDeleteApp])
    else if env.caddyWriteOk = false then
      (some "Failed to write Caddyfile",
        tr ++ [DeleteStep.dbDeleteApp, DeleteStep.caddyWrite])
    else if env.caddyReloadOk = false then
      (some "Failed to reload Caddy",
        tr ++ [DeleteStep.dbDeleteApp, DeleteStep.caddyWrite, DeleteStep.caddyReload])
    else
      (none, tr ++ [DeleteStep.dbDeleteApp, DeleteStep.caddyWrite, DeleteStep.caddyReload])

/-- Counterexample to claim C4: (i) a run in which every best-effort step
succeeded and the database delete succeeded, but the Caddy reload failed,
makes the whole operation fail — so the database delete is not the only
sub-step whose failure aborts `deleteApplication`; (ii) a fully successful
run never attempts an environment-file removal — the function has no such
step. -/
theorem deleteAppCounterexample :
    (deleteApp ⟨true, true, true, true, true, false⟩).1 = some "Failed to reload Caddy" ∧
    DeleteStep.removeEnvFile ∉ (deleteApp ⟨true, true, true, true, true, true⟩).2 := by
  decide

/-- Claim C4 (amended): for an existing application, `deleteApplication`
swallows failures of the service stop/removal and deploy-directory removal
(their outcomes do not affect the result), performs no environment-file
removal, and succeeds exactly when the database delete, the Caddyfile write
and the Caddy reload all succeed. -/
theorem deleteAppBestEffort (env : DeleteEnv) (happ : env.appExists = true) :
    ((deleteApp env).1 = none ↔
      (env.dbDeleteOk && env.caddyWriteOk && env.caddyReloadOk) = true) ∧
    DeleteStep.removeEnvFile ∉ (deleteApp env).2 ∧
    DeleteStep.deleteService ∈ (deleteApp env).2 ∧
    DeleteStep.removeDirectory ∈ (deleteApp env).2 ∧
    DeleteStep.dbDeleteApp ∈ (deleteApp env).2 := by
  obtain ⟨a, sv, rd, db, cw, cr⟩ := env
  cases a
  · cases happ
  · cases sv <;> cases rd <;> cases db <;> cases cw <;> cases cr <;> decide

/-- Witness for the amended C4: both best-effort steps fail, everything else
succeeds; the operation still succeeds and never touches an environment
file. -/
theorem deleteAppBestEffort_witness :
    ((deleteApp ⟨true, false, false, true, true, true⟩).1 = none ↔ (true && true && true) = true) ∧
    DeleteStep.removeEnvFile ∉ (deleteApp ⟨true, false, false, true, true, true⟩).2 ∧
    DeleteStep.deleteService ∈ (deleteApp ⟨true, false, false, true, true, true⟩).2 ∧
    DeleteStep.removeDirectory ∈ (deleteApp ⟨true, false, false, true, true, true⟩).2 ∧
    DeleteStep.dbDeleteApp ∈ (deleteApp ⟨true, false, false, true, true, true⟩).2 :=
  deleteAppBestEffort ⟨true, false, false, true, true, true⟩ rfl

/-! ## Proxy domain mutations (`src/lib/caddy.ts` 162-199)

`addDomain` mutates the domain table, writes the Caddyfile, calls
`validateConfig` (which returns a boolean and never throws), throws before
reloading when the config is invalid, then reloads.  `removeDomain` mutates
the table, writes and reloads — it never calls `validateConfig`. -/

inductive ProxyAction where
  | dbAddDomain (domain : String)
  | dbRemoveDomain (domainId : Nat)
  | writeConfig
  | validateConfig
  | reloadConfig
deriving DecidableEq, Repr

/-- Outcome oracles for the proxy configurator's external effects. -/
structure ProxyEnv where
  appExists : Bool
  writeOk : Bool
  validOk : Bool
  reloadOk : Bool
deriving DecidableEq, Repr

/-- `CaddyManager.addDomain` (caddy.ts 172-191): the aborting error
(`none` on success) and the ordered trace of performed actions. -/
def addDomain (env : ProxyEnv) (domain : String) : Option String × List ProxyAction :=
  if env.appExists = false then
    (some "App not found", [])
  else
    let tr := [ProxyAction.dbAddDomain domain]
    if env.writeOk = false then
      (some "Failed to write Caddyfile", tr ++ [ProxyAction.writeConfig])
    else
      let tr := tr ++ [ProxyAction.writeConfig, ProxyAction.validateConfig]
      if env.validOk = false then
        (some "Generated Caddy configuration is invalid", tr)
      else if env.reloadOk = false then
        (some "Failed to reload Caddy", tr ++ [ProxyAction.reloadConfig])
      else
        (none, tr ++ [ProxyAction.reloadConfig])

/-- `CaddyManager.removeDomain` (caddy.ts 193-199): remove the binding,
write the Caddyfile, reload — with no validation step. -/
def removeDomain (env : ProxyEnv) (domainId : Nat) : Option String × List ProxyAction :=
  let tr := [ProxyAction.dbRemoveDomain domainId]
  if env.writeOk = false then
    (some "Failed to write Caddyfile", tr ++ [ProxyAction.writeConfig])
  else if env.reloadOk = false then
    (some "Failed to reload Caddy",
      tr ++ [ProxyAction.writeConfig, ProxyAction.reloadConfig])
  else
    (none, tr ++ [ProxyAction.writeConfig, ProxyAction.reloadConfig])

/-- Counterexample to claim C6: with a valid write but a config that would
fail validation, `removeDomain` never performs a validation step and still
reloads the proxy — it does not perform the same validate-before-reload step
as `addDomain`. -/
theorem removeDomainCounterexample :
    ProxyAction.validateConfig ∉ (removeDomain ⟨true, true, false, true⟩ 7).2 ∧
    ProxyAction.reloadConfig ∈ (removeDomain ⟨true, true, false, true⟩ 7).2 ∧
    (removeDomain ⟨true, true, false, true⟩ 7).1 = none ∧
    (addDomain ⟨true, true, false, true⟩ "shop.example.com").1 =
      some "Generated Caddy configuration is invalid" := by
  decide

/-- Claim C6 (amended): `addDomain` mutates the domain table, writes the
config, validates it, and aborts with an error before any reload when
validation fails; `removeDomain` mutates the table, writes and reloads
directly, performing no validation step at all. -/
theorem domainMutationValidation (env : ProxyEnv) (domain : String) (domainId : Nat)
    (happ : env.appExists = true) (hw : env.writeOk = true) (hv : env.validOk = false) :
    (addDomain env domain).1 = some "Generated Caddy configuration is invalid" ∧
    ProxyAction.reloadConfig ∉ (addDomain env domain).2 ∧
    ProxyAction.validateConfig ∈ (addDomain env domain).2 ∧
    ProxyAction.validateConfig ∉ (removeDomain env domainId).2 ∧
    ProxyAction.reloadConfig ∈ (removeDomain env domainId).2 := by
  obtain ⟨a, w, v, r⟩ := env
  cases a
  · cases happ
  · cases w
    · cases hw
    · cases v
      · cases r <;>
          simp [addDomain, removeDomain]
      · cases hv

/-- Witness for the amended C6: a reachable app, a successful write and an
invalid generated config; `addDomain` aborts before reloading while
`removeDomain` reloads without validating. -/
theorem domainMutationValidation_witness :
    (addDomain ⟨true, true, false, true⟩ "shop.example.com").1 =
      some "Generated Caddy configuration is invalid" ∧
    ProxyAction.reloadConfig ∉ (addDomain ⟨true, true, false, true⟩ "shop.example.com").2 ∧
    ProxyAction.validateConfig ∈ (addDomain ⟨true, true, false, true⟩ "shop.example.com").2 ∧
    ProxyAction.validateConfig ∉ (removeDomain ⟨true, true, false, true⟩ 7).2 ∧
    ProxyAction.reloadConfig ∈ (removeDomain ⟨true, true, false, true⟩ 7).2 :=
  domainMutationValidation ⟨true, true, false, true⟩ "shop.example.com" 7 rfl rfl rfl

/-! ## Deployment log streaming (`src/routes/deploy.ts` 219-299,
`src/lib/deployment.ts` 40-608)

`streamDeploymentLogs` calls
`DeploymentManager.enableStreamingForDeployment(queueId)`, but the
`DeploymentManager` class in `src/lib/deployment.ts` declares no such
method (nor `disableStreamingForDeployment`, nor any broadcast in
`logToQueue`), so the call throws a `TypeError` that the surrounding
`try`/`catch` turns into a failure response. -/

/-- The methods the `DeploymentManager` class of `src/lib/deployment.ts`
actually declares (lines 40-608). -/
def deploymentManagerMethods : List String :=
  ["logToQueue", "addToQueue", "getQueueStatus", "getDeploymentStatus",
    "processQueue", "deployFromGit", "deployFromFile",
    "deployFromGitInternal", "deployFromFileInternal", "getOrCreateApp",
    "redeploy", "getDeploymentLogs", "deleteApp"]

/-- A JavaScript method call on the manager object: calling a name the class
does not declare throws `TypeError: … is not a function`. -/
def callManagerMethod (m : String) : Except String Unit :=
  if deploymentManagerMethods.contains m then Except.ok ()
  else Except.error (m ++ " is not a function")

/-- The `deploy:stream-logs` handler (deploy.ts 219-260): validate
`queueId`, then call `enableStreamingForDeployment` inside `try`; the
`catch` returns the error as a failure response. -/
def streamDeploymentLogs (queueId : Option Nat) : HandlerResponse :=
  match queueId with
  | none => { success := false, error := some "queueId is required" }
  | some q =>
    if q = 0 then { success := false, error := some "queueId is required" }
    else
      match callManagerMethod "enableStreamingForDeployment" with
      | Except.error e => { success := false, error := some e }
      | Except.ok _ => { success := true, error := none }

/-- Claim C2, evaluated on the code: `src/lib/deployment.ts` declares
neither `enableStreamingForDeployment` nor `disableStreamingForDeployment`,
so every `deploy:stream-logs` request (here queue id 1) throws inside the
handler and is answered with a failure — the start-stream request never
succeeds and no live streaming flag exists to gate log broadcasts. -/
theorem streamingMethodsMissing :
    "enableStreamingForDeployment" ∉ deploymentManagerMethods ∧
    "disableStreamingForDeployment" ∉ deploymentManagerMethods ∧
    streamDeploymentLogs (some 1) =
      { success := false,
        error := some "enableStreamingForDeployment is not a function" } := by
  decide

/-! ## Application resolution on redeploy (`src/lib/deployment.ts` 506-538,
`src/lib/db.ts` 148-152)

For an existing application, `getOrCreateApp` builds an updates object —
always `start_command` and `runtime`; `repository_url` and `branch` when
truthy; `build_command` and `install_command` when not `undefined` — and
passes it to `dbHelpers.updateApp`, which interpolates every key into
`UPDATE apps SET key = ?, …, updated_at = CURRENT_TIMESTAMP WHERE id = ?`.
The `apps` table (db.ts 24-37) has no `runtime` column, so preparing that
statement fails. -/

/-- The columns of the `apps` table as created in db.ts 24-37. -/
def appsColumns : List String :=
  ["id", "name", "pm2_id", "repository_url", "branch", "deploy_path",
    "start_command", "build_command", "install_command", "status",
    "created_at", "updated_at"]

/-- Preparing the `updateApp` statement (db.ts 148-152): SQLite rejects the
first SET key that is not a column of `apps`; otherwise the statement sets
the given keys plus `updated_at`. -/
def updateApp (updates : List (String × String)) : Except String (List String) :=
  match updates.find? (fun kv => !(appsColumns.contains kv.1)) with
  | some kv => Except.error ("no such column: " ++ kv.1)
  | none => Except.ok (updates.map Prod.fst ++ ["updated_at"])

/-- The updates object `getOrCreateApp` builds for an existing app
(deployment.ts 524-535): `start_command` and `runtime` always;
`repository_url`/`branch` when truthy; `build_command`/`install_command`
when not `undefined`. -/
def getOrCreateAppUpdates (startCommand runtime : String)
    (repository : Option String) (branch : String)
    (buildCommand installCommand : Option String) : List (String × String) :=
  [("start_command", startCommand), ("runtime", runtime)] ++
    (match repository with
      | some r => if r == "" then [] else [("repository_url", r)]
      | none => []) ++
    (if branch == "" then [] else [("branch", branch)]) ++
    (match buildCommand with
      | some v => [("build_command", v)]
      | none => []) ++
    (match installCommand with
      | some v => [("install_command", v)]
      | none => [])

/-- Claim C10, evaluated on the code: for every existing application the
resolution step's `updateApp` call puts the key `runtime` into the SET
clause, and the `apps` table has no `runtime` column, so the statement
fails to prepare — no field-selective update happens at all; the call
throws instead. -/
theorem getOrCreateAppUpdateFails (startCommand runtime : String)
    (repository : Option String) (branch : String)
    (buildCommand installCommand : Option String) :
    updateApp (getOrCreateAppUpdates startCommand runtime repository branch
        buildCommand installCommand) =
      Except.error "no such column: runtime" := rfl

/-! ## Proxy configuration rendering (`src/lib/caddy.ts` 26-111)

`generateCaddyfile` emits a dashboard entry, then for every application and
each of its bound domains a reverse-proxy site block for
`getAppPort(app.name)` followed — unconditionally — by a companion redirect
block between the `www.` and bare forms of the domain.  `getAppPort` is the
JavaScript 32-bit string hash `hash = ((hash << 5) - hash) + charCode;
hash = hash & hash` mapped into `4000 + |hash| % 5000`. -/

structure AppRec where
  id : Nat
  name : String
deriving DecidableEq, Repr

structure DomainRow where
  id : Nat
  app_id : Nat
  domain : String
  ssl_enabled : Bool
deriving DecidableEq, Repr

/-- JavaScript `x & x` on a number: `ToInt32`, the value reduced into
`[-2^31, 2^31)`. -/
def toInt32 (n : Int) : Int := (n + 2 ^ 31) % 2 ^ 32 - 2 ^ 31

/-- One iteration of the `getAppPort` hash loop: `hash = ((hash << 5) -
hash) + char; hash = hash & hash`.  `hash << 5` is a 32-bit shift
(`ToInt32 (hash * 32)`); the subtraction and addition are exact (the
magnitudes stay far below `2^53`); `hash & hash` reduces back to 32 bits. -/
def hashStep (h : Int) (c : Nat) : Int := toInt32 (toInt32 (h * 32) - h + c)

def appNameHash (cs : List Nat) : Int := cs.foldl hashStep 0

/-- `appName.charCodeAt(i)` for each index: the UTF-16 code units — equal to
the code points for names in the basic multilingual plane. -/
def charCodes (s : String) : List Nat := s.data.map Char.toNat

/-- `CaddyManager.getAppPort` (caddy.ts 99-111):
`4000 + Math.abs(hash) % 5000`. -/
def getAppPort (appName : String) : Nat :=
  4000 + (appNameHash (charCodes appName)).natAbs % 5000

/-- JavaScript `s.startsWith(p)`, modelled on the character list so that
concrete instances evaluate inside proofs. -/
def strStartsWith (s p : String) : Bool := p.data.isPrefixOf s.data

/-- Dropping the first `n` characters of a string (the effect of
`replace('www.', '')` on a string that starts with `www.`). -/
def strDrop (s : String) (n : Nat) : String := String.mk (s.data.drop n)

/-- The structural content of the rendered Caddyfile: the dashboard entry,
one reverse-proxy site block per (app, domain), and the redirect blocks. -/
inductive CaddyBlock where
  | dashboard (url : String)
  | site (domain : String) (port : Nat) (ssl : Bool)
  | redirect (fromDomain : String) (toDomain : String)
deriving DecidableEq, Repr

/-- The companion redirect block (caddy.ts 75-91): for a `www.` domain a
block redirecting the bare form to it (`replace('www.', '')` after the
`startsWith` guard drops the 4-character prefix), otherwise a block
redirecting the `www.` form to the declared domain.  No wildcard check is
performed. -/
def companionRedirect (d : String) : CaddyBlock :=
  if strStartsWith d "www." then CaddyBlock.redirect (strDrop d 4) d
  else CaddyBlock.redirect ("www." ++ d) d

/-- The blocks one domain of one app contributes (caddy.ts 42-91): the site
block with the app's port and TLS mode, then the companion redirect. -/
def domainBlocks (appName : String) (d : DomainRow) : List CaddyBlock :=
  [CaddyBlock.site d.domain (getAppPort appName) d.ssl_enabled,
    companionRedirect d.domain]

/-- The inner `for (const domain of domains)` loop. -/
def domainsBlocks (appName : String) : List DomainRow → List CaddyBlock
  | [] => []
  | d :: rest => domainBlocks appName d ++ domainsBlocks appName rest

/-- The outer `for (const app of apps)` loop; `dbHelpers.getAppDomains`
selects the rows with the app's id (their ordering does not change the
multiset of blocks). -/
def appsBlocks (doms : List DomainRow) : List AppRec → List CaddyBlock
  | [] => []
  | a :: rest =>
    domainsBlocks a.name (doms.filter fun d => d.app_id == a.id) ++ appsBlocks doms rest

/-- `CaddyManager.generateCaddyfile` (caddy.ts 26-97) as its list of
blocks. -/
def generateCaddyfile (dashboardURL : String) (apps : List AppRec)
    (doms : List DomainRow) : List CaddyBlock :=
  CaddyBlock.dashboard dashboardURL :: appsBlocks doms apps

/-- The spec's "wildcard/catch-all" domain: a Caddy site pattern beginning
with `*` (e.g. `*.example.com`). -/
def isWildcardDomain (d : String) : Bool := strStartsWith d "*"

/-- Is this block the reverse-proxy site block of domain `d`? -/
def siteFor (d : String) : CaddyBlock → Bool
  | CaddyBlock.site d' _ _ => d' == d
  | _ => false

/-- Is this block a redirect paired with domain `d` (its target)? -/
def redirFor (d : String) : CaddyBlock → Bool
  | CaddyBlock.redirect _ t => t == d
  | _ => false

/-- Claim C8: the allocated port is a pure function of the application name
(the hash reads nothing else, so every render recomputes the same port for
the same name) and always lies in 4000..8999. -/
theorem getAppPortRange (appName : String) :
    4000 ≤ getAppPort appName ∧ getAppPort appName ≤ 8999 := by
  unfold getAppPort
  refine ⟨Nat.le_add_right _ _, ?_⟩
  have h : (appNameHash (charCodes appName)).natAbs % 5000 < 5000 :=
    Nat.mod_lt _ (by norm_num)
  omega

theorem siteFor_companion (d s : String) : siteFor d (companionRedirect s) = false := by
  unfold companionRedirect
  split <;> rfl

theorem redirFor_companion (d s : String) : redirFor d (companionRedirect s) = (s == d) := by
  unfold companionRedirect
  split <;> rfl

theorem siteFor_site (d d' : String) (p : Nat) (s : Bool) :
    siteFor d (CaddyBlock.site d' p s) = (d' == d) := rfl

theorem redirFor_site (d d' : String) (p : Nat) (s : Bool) :
    redirFor d (CaddyBlock.site d' p s) = false := rfl

theorem countP_domainBlocks_site (nm d : String) (dr : DomainRow) :
    (domainBlocks nm dr).countP (siteFor d) = if dr.domain == d then 1 else 0 := by
  rw [domainBlocks, List.countP_cons, List.countP_cons, List.countP_nil,
    siteFor_companion, siteFor_site]
  cases h : dr.domain == d <;> simp [h]

theorem countP_domainBlocks_redir (nm d : String) (dr : DomainRow) :
    (domainBlocks nm dr).countP (redirFor d) = if dr.domain == d then 1 else 0 := by
  rw [domainBlocks, List.countP_cons, List.countP_cons, List.countP_nil,
    redirFor_companion, redirFor_site]
  cases h : dr.domain == d <;> simp [h]

theorem countP_domainsBlocks (nm : String) (p : CaddyBlock → Bool) (d : String)
    (hp : ∀ dr : DomainRow, (domainBlocks nm dr).countP p = if dr.domain == d then 1 else 0)
    (l : List DomainRow) :
    (domainsBlocks nm l).countP p = l.countP (fun dr => dr.domain == d) := by
  induction l with
  | nil => rfl
  | cons dr t ih =>
    rw [domainsBlocks, List.countP_append, hp, ih, List.countP_cons]
    cases h : dr.domain == d <;> simp [h, Nat.add_comm]

theorem countP_domains_unique (doms : List DomainRow) (dr : DomainRow)
    (hnd : (doms.map DomainRow.domain).Nodup) (hdr : dr ∈ doms) (x : Nat) :
    doms.countP (fun dr' => (dr'.domain == dr.domain) && (dr'.app_id == x)) =
      if dr.app_id == x then 1 else 0 := by
  induction doms with
  | nil => cases hdr
  | cons d0 t ih =>
    rw [List.map_cons, List.nodup_cons] at hnd
    rcases List.mem_cons.mp hdr with rfl | hdt
    · have ht0 : t.countP (fun dr' => (dr'.domain == dr.domain) && (dr'.app_id == x)) = 0 := by
        rw [List.countP_eq_zero]
        intro a ha
        have hne : a.domain ≠ dr.domain := fun h =>
          hnd.1 (h ▸ List.mem_map_of_mem DomainRow.domain ha)
        simp [hne]
      rw [List.countP_cons, ht0]
      cases h : dr.app_id == x <;> simp [h]
    · have hne : d0.domain ≠ dr.domain := fun h =>
        hnd.1 (h ▸ List.mem_map_of_mem DomainRow.domain hdt)
      rw [List.countP_cons, ih hnd.2 hdt]
      simp [hne]

theorem countP_appsBlocks (p : CaddyBlock → Bool) (doms : List DomainRow) (dr : DomainRow)
    (hndDoms : (doms.map DomainRow.domain).Nodup) (hdr : dr ∈ doms)
    (hp : ∀ nm (dr' : DomainRow),
      (domainBlocks nm dr').countP p = if dr'.domain == dr.domain then 1 else 0)
    (apps : List AppRec) :
    (appsBlocks doms apps).countP p = apps.countP (fun a => dr.app_id == a.id) := by
  induction apps with
  | nil => rfl
  | cons a t ih =>
    rw [appsBlocks, List.countP_append, ih, List.countP_cons]
    have hinner :
        (domainsBlocks a.name (doms.filter fun d0 => d0.app_id == a.id)).countP p =
          if dr.app_id == a.id then 1 else 0 := by
      rw [countP_domainsBlocks a.name p dr.domain (hp a.name), List.countP_filter]
      exact countP_domains_unique doms dr hndDoms hdr a.id
    rw [hinner]
    cases h : dr.app_id == a.id <;> simp [h, Nat.add_comm]

theorem countP_apps_unique (apps : List AppRec) (a : AppRec)
    (hnd : (apps.map AppRec.id).Nodup) (ha : a ∈ apps) (v : Nat) (hv : v = a.id) :
    apps.countP (fun a' => v == a'.id) = 1 := by
  induction apps with
  | nil => cases ha
  | cons a0 t ih =>
    rw [List.map_cons, List.nodup_cons] at hnd
    rcases List.mem_cons.mp ha with rfl | hat
    · have ht0 : t.countP (fun a' => v == a'.id) = 0 := by
        rw [List.countP_eq_zero]
        intro x hx
        have hne : a.id ≠ x.id := fun h => hnd.1 (h ▸ List.mem_map_of_mem AppRec.id hx)
        simp [hv, hne]
      rw [List.countP_cons, ht0]
      simp [hv]
    · have hne : v ≠ a0.id := fun h =>
        hnd.1 (by rw [← h, hv]; exact List.mem_map_of_mem AppRec.id hat)
      rw [List.countP_cons, ih hnd.2 hat]
      simp [hne]

theorem mem_domainsBlocks (nm : String) (l : List DomainRow) (dr : DomainRow)
    (hdr : dr ∈ l) (x : CaddyBlock) (hx : x ∈ domainBlocks nm dr) :
    x ∈ domainsBlocks nm l := by
  induction l with
  | nil => cases hdr
  | cons d0 t ih =>
    rcases List.mem_cons.mp hdr with rfl | hdt
    · exact List.mem_append_left _ hx
    · exact List.mem_append_right _ (ih hdt)

theorem mem_appsBlocks (doms : List DomainRow) (apps : List AppRec) (a : AppRec)
    (ha : a ∈ apps) (x : CaddyBlock)
    (hx : x ∈ domainsBlocks a.name (doms.filter fun d0 => d0.app_id == a.id)) :
    x ∈ appsBlocks doms apps := by
  induction apps with
  | nil => cases ha
  | cons a0 t ih =>
    rcases List.mem_cons.mp ha with rfl | hat
    · exact List.mem_append_left _ hx
    · exact List.mem_append_right _ (ih hat)

/-- Counterexample to claim C5: the companion redirect block is not omitted
for a wildcard/catch-all domain — for the wildcard domain `*.example.com`
the rendered config still contains the (nonsensical) redirect block
`www.*.example.com → *.example.com`. -/
theorem wildcardRedirectCounterexample :
    isWildcardDomain "*.example.com" = true ∧
    companionRedirect "*.example.com" =
      CaddyBlock.redirect "www.*.example.com" "*.example.com" ∧
    (generateCaddyfile ":8008" [⟨1, "shop"⟩] [⟨1, 1, "*.example.com", true⟩]).countP
        (redirFor "*.example.com") = 1 := by
  refine ⟨by decide, by decide, by decide⟩

/-- Claim C5 (amended): for every domain bound to an application the
rendered config contains exactly one reverse-proxy site block for that
domain — targeting the owning app's allocated port — and exactly one paired
redirect block between the `www.` and bare forms; the companion redirect is
generated unconditionally, for wildcard/catch-all domains as well (see
`wildcardRedirectCounterexample`).  Uniqueness rests on the database
constraints: app ids and domain strings are unique. -/
theorem caddyfileBlocksPerDomain (dash : String) (apps : List AppRec)
    (doms : List DomainRow) (dr : DomainRow) (a : AppRec)
    (hndApps : (apps.map AppRec.id).Nodup)
    (hndDoms : (doms.map DomainRow.domain).Nodup)
    (hdr : dr ∈ doms) (ha : a ∈ apps) (hown : dr.app_id = a.id) :
    (generateCaddyfile dash apps doms).countP (siteFor dr.domain) = 1 ∧
    CaddyBlock.site dr.domain (getAppPort a.name) dr.ssl_enabled ∈
      generateCaddyfile dash apps doms ∧
    (generateCaddyfile dash apps doms).countP (redirFor dr.domain) = 1 ∧
    companionRedirect dr.domain ∈ generateCaddyfile dash apps doms := by
  have hmemfil : dr ∈ doms.filter fun d0 => d0.app_id == a.id :=
    List.mem_filter.mpr ⟨hdr, by simp [hown]⟩
  have hsitemem : CaddyBlock.site dr.domain (getAppPort a.name) dr.ssl_enabled ∈
      generateCaddyfile dash apps doms := by
    refine List.mem_cons_of_mem _ (mem_appsBlocks doms apps a ha _ ?_)
    exact mem_domainsBlocks a.name _ dr hmemfil _ (by simp [domainBlocks])
  have hredirmem : companionRedirect dr.domain ∈ generateCaddyfile dash apps doms := by
    refine List.mem_cons_of_mem _ (mem_appsBlocks doms apps a ha _ ?_)
    exact mem_domainsBlocks a.name _ dr hmemfil _ (by simp [domainBlocks])
  refine ⟨?_, hsitemem, ?_, hredirmem⟩
  · rw [generateCaddyfile, List.countP_cons,
      countP_appsBlocks (siteFor dr.domain) doms dr hndDoms hdr
        (fun nm dr' => countP_domainBlocks_site nm dr.domain dr'),
      countP_apps_unique apps a hndApps ha dr.app_id hown]
    rfl
  · rw [generateCaddyfile, List.countP_cons,
      countP_appsBlocks (redirFor dr.domain) doms dr hndDoms hdr
        (fun nm dr' => countP_domainBlocks_redir nm dr.domain dr'),
      countP_apps_unique apps a hndApps ha dr.app_id hown]
    rfl

/-- Witness for the amended C5: two apps with one domain each; the first
domain gets exactly one site block (on port `getAppPort "shop"`) and one
companion redirect. -/
theorem caddyfileBlocksPerDomain_witness :
    (generateCaddyfile ":8008" [⟨1, "shop"⟩, ⟨2, "blog"⟩]
        [⟨1, 1, "shop.example.com", true⟩, ⟨2, 2, "www.blog.example.com", false⟩]).countP
      (siteFor "shop.example.com") = 1 ∧
    CaddyBlock.site "shop.example.com" (getAppPort "shop") true ∈
      generateCaddyfile ":8008" [⟨1, "shop"⟩, ⟨2, "blog"⟩]
        [⟨1, 1, "shop.example.com", true⟩, ⟨2, 2, "www.blog.example.com", false⟩] ∧
    (generateCaddyfile ":8008" [⟨1, "shop"⟩, ⟨2, "blog"⟩]
        [⟨1, 1, "shop.example.com", true⟩, ⟨2, 2, "www.blog.example.com", false⟩]).countP
      (redirFor "shop.example.com") = 1 ∧
    companionRedirect "shop.example.com" ∈
      generateCaddyfile ":8008" [⟨1, "shop"⟩, ⟨2, "blog"⟩]
        [⟨1, 1, "shop.example.com", true⟩, ⟨2, 2, "www.blog.example.com", false⟩] :=
  caddyfileBlocksPerDomain ":8008" [⟨1, "shop"⟩, ⟨2, "blog"⟩]
    [⟨1, 1, "shop.example.com", true⟩, ⟨2, 2, "www.blog.example.com", false⟩]
    ⟨1, 1, "shop.example.com", true⟩ ⟨1, "shop"⟩
    (by decide) (by decide) (by decide) (by decide) rfl

/-! ## Service supervisor status (`src/lib/systemctl.ts` 200-315, 416-636)

`getStatus` runs `systemctl is-active`, `is-enabled` and `show` (a failure
of any of these lands in the outer `catch`, which returns the minimal
structure), parses the `show` output into properties, separately tries
`systemctl status` for enrichment (its failure only drops the enrichment),
and merges.  The JavaScript string operations are modelled on character
lists so concrete instances evaluate inside proofs. -/

/-- The whitespace characters relevant on a single line (JS `\s` minus the
line separators removed by `split('\n')`). -/
def isJsSpace (c : Char) : Bool := c == ' ' || c == '\t' || c == '\r'

/-- JS `String.prototype.trim`. -/
def jsTrim (s : String) : String :=
  String.mk (((s.data.dropWhile isJsSpace).reverse.dropWhile isJsSpace).reverse)

def splitCharAux (c : Char) : List Char → List Char → List (List Char)
  | [], acc => [acc.reverse]
  | x :: xs, acc =>
    if x == c then acc.reverse :: splitCharAux c xs []
    else splitCharAux c xs (x :: acc)

/-- JS `s.split(sep)` for a one-character separator (`'\n'`, `'='`, `'/'`,
`' '` are the only separators the source uses). -/
def jsSplit (c : Char) (s : String) : List String :=
  (splitCharAux c s.data []).map String.mk

/-- JS `valueParts.join('=')`. -/
def joinEq : List String → String
  | [] => ""
  | [x] => x
  | x :: xs => x ++ "=" ++ joinEq xs

def digitsToNat (ds : List Char) : Nat :=
  ds.foldl (fun n c => n * 10 + (c.toNat - 48)) 0

/-- JS `parseInt` on the non-negative inputs the source feeds it: leading
whitespace skipped, leading digit run parsed; `none` models `NaN`. -/
def jsParseInt (s : String) : Option Nat :=
  let t := (jsTrim s).data
  let ds := t.takeWhile Char.isDigit
  if ds.isEmpty then none else some (digitsToNat ds)

structure LoadedInfo where
  state : String
  path : String
  enabled : String
  preset : String
deriving DecidableEq, Repr

structure ActiveInfo where
  state : String
  subState : String
  since : String
  duration : String
deriving DecidableEq, Repr

/-- `mainPid` block; the pid is `none` when `parseInt` gave `NaN`. -/
structure MainPidInfo where
  pid : Option Nat
  command : String
deriving DecidableEq, Repr

structure TasksInfo where
  current : Nat
  limit : Nat
deriving DecidableEq, Repr

structure MemoryInfo where
  current : String
  peak : Option String
  currentBytes : Option Nat
  peakBytes : Option Nat
deriving DecidableEq, Repr

structure CpuInfo where
  usage : String
  usageNSec : Option Nat
deriving DecidableEq, Repr

structure CgroupInfo where
  path : String
  processes : List (Nat × String)
deriving DecidableEq, Repr

/-- The normalized structure `getStatus` returns (`SystemctlProcess`,
systemctl.ts 10-56). -/
structure SystemctlProcess where
  name : String
  status : String
  enabled : Bool
  description : String
  runtime : String
  cwd : Option String
  loaded : Option LoadedInfo
  active : Option ActiveInfo
  mainPid : Option MainPidInfo
  tasks : Option TasksInfo
  memory : Option MemoryInfo
  cpu : Option CpuInfo
  cgroup : Option CgroupInfo
deriving DecidableEq, Repr

/-- The partial result `parseSystemctlStatus` accumulates (each field
independently best-effort). -/
structure StatusPartial where
  loaded : Option LoadedInfo := none
  active : Option ActiveInfo := none
  mainPid : Option MainPidInfo := none
  tasks : Option TasksInfo := none
  memory : Option MemoryInfo := none
  cpu : Option CpuInfo := none
  cgroup : Option CgroupInfo := none
deriving DecidableEq, Repr

/-! Parser primitives: each regex of `parseSystemctlStatus` is a chain of
literals, `\s+`/`\s*` runs, `\w+`/`\d+`/`[0-9.]+` runs and until-delimiter
runs, searched at every position of the line (`String.prototype.match`). -/

def litP : List Char → List Char → Option (List Char)
  | [], cs => some cs
  | _ :: _, [] => none
  | l :: ls, c :: cs => if c == l then litP ls cs else none

/-- One-or-more run of characters satisfying `p`: the greedy `+` quantifier
(no following pattern element can match these character classes, so greedy
matching without backtracking is faithful here). -/
def tk1 (p : Char → Bool) (cs : List Char) : Option (List Char × List Char) :=
  let s := cs.takeWhile p
  if s.isEmpty then none else some (s, cs.dropWhile p)

def isWordChar (c : Char) : Bool := c.isAlphanum || c == '_'

def isNumDotChar (c : Char) : Bool := c.isDigit || c == '.'

def isLowerAlpha (c : Char) : Bool := 'a' ≤ c && c ≤ 'z'

/-- `text.match(re)`: try the pattern at every start position. -/
def searchP {α : Type} (f : List Char → Option α) : List Char → Option α
  | [] => f []
  | c :: cs =>
    match f (c :: cs) with
    | some a => some a
    | none => searchP f cs

/-- `/Loaded:\s+(\w+)\s+\(([^;]+);\s*(\w+);\s*preset:\s*(\w+)/`
(systemctl.ts 439). -/
def matchLoaded (cs : List Char) : Option LoadedInfo := do
  let cs ← litP "Loaded:".data cs
  let (_, cs) ← tk1 isJsSpace cs
  let (st, cs) ← tk1 isWordChar cs
  let (_, cs) ← tk1 isJsSpace cs
  let cs ← litP "(".data cs
  let (pth, cs) ← tk1 (fun c => !(c == ';')) cs
  let cs ← litP ";".data cs
  let cs := cs.dropWhile isJsSpace
  let (en, cs) ← tk1 isWordChar cs
  let cs ← litP ";".data cs
  let cs := cs.dropWhile isJsSpace
  let cs ← litP "preset:".data cs
  let cs := cs.dropWhile isJsSpace
  let (pr, _) ← tk1 isWordChar cs
  some ⟨String.mk st, String.mk pth, String.mk en, String.mk pr⟩

/-- `/Active:\s+(\w+)\s+\((\w+)\)\s+since\s+(.+?);\s*(.+)/`
(systemctl.ts 452). -/
def matchActive (cs : List Char) : Option ActiveInfo := do
  let cs ← litP "Active:".data cs
  let (_, cs) ← tk1 isJsSpace cs
  let (st, cs) ← tk1 isWordChar cs
  let (_, cs) ← tk1 isJsSpace cs
  let cs ← litP "(".data cs
  let (sub, cs) ← tk1 isWordChar cs
  let cs ← litP ")".data cs
  let (_, cs) ← tk1 isJsSpace cs
  let cs ← litP "since".data cs
  let (_, cs) ← tk1 isJsSpace cs
  let (sinceS, cs) ← tk1 (fun c => !(c == ';')) cs
  let cs ← litP ";".data cs
  let cs := cs.dropWhile isJsSpace
  let (dur, _) ← tk1 (fun _ => true) cs
  some ⟨String.mk st, String.mk sub, String.mk sinceS, String.mk dur⟩

/-- `/Main PID:\s+(\d+)\s+\((.+?)\)/` (systemctl.ts 465). -/
def matchMainPid (cs : List Char) : Option MainPidInfo := do
  let cs ← litP "Main PID:".data cs
  let (_, cs) ← tk1 isJsSpace cs
  let (ds, cs) ← tk1 Char.isDigit cs
  let (_, cs) ← tk1 isJsSpace cs
  let cs ← litP "(".data cs
  let (cmd, cs) ← tk1 (fun c => !(c == ')')) cs
  let _ ← litP ")".data cs
  some ⟨some (digitsToNat ds), String.mk cmd⟩

/-- `/Tasks:\s+(\d+)\s+\(limit:\s*(\d+|infinity)\)/` (systemctl.ts 476);
`infinity` is stored as limit 0. -/
def matchTasks (cs : List Char) : Option TasksInfo := do
  let cs ← litP "Tasks:".data cs
  let (_, cs) ← tk1 isJsSpace cs
  let (ds, cs) ← tk1 Char.isDigit cs
  let (_, cs) ← tk1 isJsSpace cs
  let cs ← litP "(limit:".data cs
  let cs := cs.dropWhile isJsSpace
  match tk1 Char.isDigit cs with
  | some (ls, cs2) => do
    let _ ← litP ")".data cs2
    some ⟨digitsToNat ds, digitsToNat ls⟩
  | none => do
    let cs2 ← litP "infinity".data cs
    let _ ← litP ")".data cs2
    some ⟨digitsToNat ds, 0⟩

def memUnit : Char → Nat
  | 'K' => 1024
  | 'M' => 1024 * 1024
  | 'G' => 1024 * 1024 * 1024
  | 'T' => 1024 * 1024 * 1024 * 1024
  | _ => 1

/-- JS `parseFloat` on a `[0-9.]+` capture, exactly, as a fraction
(numerator, denominator): the digits before the first dot, then the
fractional digits up to a second dot (anything after a second dot is
ignored by `parseFloat`). -/
def parseJsFloatScaled (cs : List Char) : Nat × Nat :=
  let ip := cs.takeWhile Char.isDigit
  let rest := cs.dropWhile Char.isDigit
  match rest with
  | '.' :: r2 =>
    let fr := r2.takeWhile Char.isDigit
    (digitsToNat ip * 10 ^ fr.length + digitsToNat fr, 10 ^ fr.length)
  | _ => (digitsToNat ip, 1)

/-- `parseMemoryToBytes` (systemctl.ts 542-558): `Math.round(value *
multiplier)`, computed exactly — `round((n/d) * m) = (2·n·m + d) / (2·d)`.
(The source computes in double precision, which agrees on the inputs
systemctl emits.) -/
def parseMemoryToBytes (memStr : String) : Nat :=
  let ds := memStr.data.takeWhile isNumDotChar
  if ds.isEmpty then 0
  else
    let mult :=
      match memStr.data.dropWhile isNumDotChar with
      | u :: _ => memUnit u
      | [] => 1
    let nd := parseJsFloatScaled ds
    (2 * (nd.1 * mult) + nd.2) / (2 * nd.2)

/-- `/Memory:\s+([0-9.]+[KMGT]?)\s*(?:\(peak:\s*([0-9.]+[KMGT]?)\))?/`
(systemctl.ts 487) plus the `parseMemoryToBytes` enrichment. -/
def matchMemory (cs : List Char) : Option MemoryInfo := do
  let cs ← litP "Memory:".data cs
  let (_, cs) ← tk1 isJsSpace cs
  let (n1, cs) ← tk1 isNumDotChar cs
  let cur :=
    match cs with
    | u :: _ => if u == 'K' || u == 'M' || u == 'G' || u == 'T' then n1 ++ [u] else n1
    | [] => n1
  let cs :=
    match cs with
    | u :: rest => if u == 'K' || u == 'M' || u == 'G' || u == 'T' then rest else u :: rest
    | [] => []
  let cs := cs.dropWhile isJsSpace
  let base : MemoryInfo :=
    ⟨String.mk cur, none, some (parseMemoryToBytes (String.mk cur)), none⟩
  let peakOpt : Option (List Char) := do
    let cs2 ← litP "(peak:".data cs
    let cs2 := cs2.dropWhile isJsSpace
    let (n2, cs2) ← tk1 isNumDotChar cs2
    let pk :=
      match cs2 with
      | u :: _ => if u == 'K' || u == 'M' || u == 'G' || u == 'T' then n2 ++ [u] else n2
      | [] => n2
    let cs2 :=
      match cs2 with
      | u :: rest => if u == 'K' || u == 'M' || u == 'G' || u == 'T' then rest else u :: rest
      | [] => []
    let _ ← litP ")".data cs2
    some pk
  match peakOpt with
  | some pk =>
    some { base with
      peak := some (String.mk pk),
      peakBytes := some (parseMemoryToBytes (String.mk pk)) }
  | none => some base

/-- `/CPU:\s+([0-9.]+[a-z]*)/` (systemctl.ts 502); only `usage` is set. -/
def matchCpu (cs : List Char) : Option CpuInfo := do
  let cs ← litP "CPU:".data cs
  let (_, cs) ← tk1 isJsSpace cs
  let (n1, cs) ← tk1 isNumDotChar cs
  let letters := cs.takeWhile isLowerAlpha
  some ⟨String.mk (n1 ++ letters), none⟩

/-- `/[├└]─(\d+)\s+(.+)/` (systemctl.ts 519). -/
def matchCgroupProc (cs : List Char) : Option (Nat × String) :=
  match cs with
  | [] => none
  | c :: rest =>
    if c == '├' || c == '└' then do
      let cs ← litP "─".data rest
      let (ds, cs) ← tk1 Char.isDigit cs
      let (_, cs) ← tk1 isJsSpace cs
      let (cmd, _) ← tk1 (fun _ => true) cs
      some (digitsToNat ds, String.mk cmd)
    else none

/-! The per-line dispatch of `parseSystemctlStatus` (systemctl.ts 430-530):
each branch is guarded by `trimmed.startsWith(…)` and sets its field only
when the regex matches. -/

def lineLoaded (t : String) : Option LoadedInfo :=
  if strStartsWith t "Loaded:" then searchP matchLoaded t.data else none

def lineActive (t : String) : Option ActiveInfo :=
  if strStartsWith t "Active:" then searchP matchActive t.data else none

def lineMainPid (t : String) : Option MainPidInfo :=
  if strStartsWith t "Main PID:" then searchP matchMainPid t.data else none

def lineTasks (t : String) : Option TasksInfo :=
  if strStartsWith t "Tasks:" then searchP matchTasks t.data else none

def lineMemory (t : String) : Option MemoryInfo :=
  if strStartsWith t "Memory:" then searchP matchMemory t.data else none

def lineCpu (t : String) : Option CpuInfo :=
  if strStartsWith t "CPU:" then searchP matchCpu t.data else none

/-- `result.loaded?.path?.split('/').pop() || 'unknown.service'`
(systemctl.ts 514). -/
def cgroupTail (lo : Option LoadedInfo) : String :=
  match lo with
  | none => "unknown.service"
  | some li =>
    let lastSeg := (jsSplit '/' li.path).getLastD ""
    if lastSeg == "" then "unknown.service" else lastSeg

def stepLoaded (acc : StatusPartial) (t : String) : StatusPartial :=
  match lineLoaded t with
  | some v => { acc with loaded := some v }
  | none => acc

def stepActive (acc : StatusPartial) (t : String) : StatusPartial :=
  match lineActive t with
  | some v => { acc with active := some v }
  | none => acc

def stepMainPid (acc : StatusPartial) (t : String) : StatusPartial :=
  match lineMainPid t with
  | some v => { acc with mainPid := some v }
  | none => acc

def stepTasks (acc : StatusPartial) (t : String) : StatusPartial :=
  match lineTasks t with
  | some v => { acc with tasks := some v }
  | none => acc

def stepMemory (acc : StatusPartial) (t : String) : StatusPartial :=
  match lineMemory t with
  | some v => { acc with memory := some v }
  | none => acc

def stepCpu (acc : StatusPartial) (t : String) : StatusPartial :=
  match lineCpu t with
  | some v => { acc with cpu := some v }
  | none => acc

/-- The CGroup branch (systemctl.ts 511-526): on a `├─`/`└─` line the
cgroup object is created if absent (even when the process regex then fails)
and a matching process line is appended. -/
def stepCgroup (acc : StatusPartial) (t : String) : StatusPartial :=
  if strStartsWith t "├─" || strStartsWith t "└─" then
    let base :=
      match acc.cgroup with
      | some cg => cg
      | none => ⟨"/system.slice/" ++ cgroupTail acc.loaded, []⟩
    match searchP matchCgroupProc t.data with
    | some pr => { acc with cgroup := some ⟨base.path, base.processes ++ [pr]⟩ }
    | none => { acc with cgroup := some base }
  else acc

/-- One line of `parseSystemctlStatus`: trim, then the sequential branch
checks of the source (their guards are mutually exclusive, so sequencing
the field updates is faithful). -/
def statusStep (acc : StatusPartial) (line : String) : StatusPartial :=
  let t := jsTrim line
  stepCgroup (stepCpu (stepMemory (stepTasks (stepMainPid (stepActive
    (stepLoaded acc t) t) t) t) t) t) t

/-- `parseSystemctlStatus` (systemctl.ts 430-530). -/
def parseSystemctlStatus (out : String) : StatusPartial :=
  (jsSplit '\n' out).foldl statusStep {}

/-- `parseSystemctlShow` (systemctl.ts 416-427): split each line at `=`,
keep lines with a truthy key and at least one separator, re-join the value
parts. -/
def parseSystemctlShow (out : String) : List (String × String) :=
  (jsSplit '\n' out).filterMap fun line =>
    match jsSplit '=' line with
    | [] => none
    | [_] => none
    | k :: vs => if k == "" then none else some (k, joinEq vs)

/-- Reading `properties[k]`: the JS object keeps the last assignment. -/
def propGet (props : List (String × String)) (k : String) : Option String :=
  (props.reverse.find? fun kv => kv.1 == k).map Prod.snd

/-- `value || default` on a possibly-missing string property. -/
def orTruthy (o : Option String) (d : String) : String :=
  match o with
  | some v => if v == "" then d else v
  | none => d

def isTruthyOpt (o : Option String) : Bool :=
  match o with
  | some v => !(v == "")
  | none => false

/-- JS `haystack.includes(needle)`. -/
def containsSub (needle : List Char) : List Char → Bool
  | [] => needle.isEmpty
  | c :: cs => needle.isPrefixOf (c :: cs) || containsSub needle cs

/-- `detectRuntime` (systemctl.ts 410-414). -/
def detectRuntime (execStart : String) : String :=
  if containsSub "python".data execStart.data then "python"
  else if containsSub "bun".data execStart.data then "bun"
  else "node"

/-- `.replace(/^[^=]*=/, '')`: drop everything through the first `=`;
unchanged when there is none. -/
def dropThroughEq (cs : List Char) : List Char :=
  match cs.dropWhile (fun c => !(c == '=')) with
  | [] => cs
  | _ :: rest => rest

/-- `extractCommand` (systemctl.ts 600-615). -/
def extractCommand (execStart : String) : String :=
  if execStart == "" then "unknown"
  else
    let cleaned := jsTrim (String.mk (dropThroughEq execStart.data))
    match jsSplit ' ' cleaned with
    | [] => cleaned
    | p0 :: restParts =>
      let lastSeg := (jsSplit '/' p0).getLastD ""
      let executable := if lastSeg == "" then p0 else lastSeg
      let firstArg :=
        match restParts with
        | [] => ""
        | a :: _ => a
      if firstArg == "" then executable else executable ++ " " ++ firstArg

/-- `formatBytes` (systemctl.ts 533-539): scale by the floored base-1024
logarithm, one rounded decimal, trailing `.0` stripped (the source computes
with doubles; the rounding here is the exact rational value, half up). -/
def formatBytes (bytes : Nat) : String :=
  if bytes == 0 then "0 B"
  else
    let i := Nat.log 1024 bytes
    let b := 1024 ^ i
    let n10 := (2 * (bytes * 10) + b) / (2 * b)
    let numStr :=
      if n10 % 10 == 0 then toString (n10 / 10)
      else toString (n10 / 10) ++ "." ++ toString (n10 % 10)
    numStr ++ (["B", "K", "M", "G", "T"].getD i "undefined")

def pad3 (n : Nat) : String :=
  if n < 10 then "00" ++ toString n
  else if n < 100 then "0" ++ toString n
  else toString n

/-- `formatCPUTime` (systemctl.ts 561-569), with `toFixed(3)` rendered via
exact millisecond rounding. -/
def formatCPUTime (ns : Nat) : String :=
  if ns < 1000000000 then
    toString ((2 * ns + 1000000) / 2000000) ++ "ms"
  else if ns < 60000000000 then
    let ms := (2 * ns + 1000000) / 2000000
    toString (ms / 1000) ++ "." ++ pad3 (ms % 1000) ++ "s"
  else
    let minutes := ns / 60000000000
    let rms := (2 * (ns % 60000000000) + 1000000) / 2000000
    toString minutes ++ "m " ++ toString (rms / 1000) ++ "." ++ pad3 (rms % 1000) ++ "s"

/-- `calculateDuration` (systemctl.ts 572-597): empty/missing timestamp
gives `""`; the wall-clock date arithmetic is an oracle `cd`. -/
def calculateDuration (cd : String → String) (ts : Option String) : String :=
  match ts with
  | none => ""
  | some t => if t == "" then "" else cd t

/-- The `loaded` enrichment from `systemctl show` (systemctl.ts 235-242). -/
def loadedFromShow (props : List (String × String)) (enabled : Bool) : Option LoadedInfo :=
  match propGet props "LoadState" with
  | none => none
  | some v =>
    if v == "" then none
    else
      some ⟨v, orTruthy (propGet props "FragmentPath") "",
        orTruthy (propGet props "UnitFileState") (if enabled then "enabled" else "disabled"),
        orTruthy (propGet props "UnitFilePreset") "enabled"⟩

/-- The `active` enrichment from `systemctl show` (systemctl.ts 244-251). -/
def activeFromShow (props : List (String × String)) (cd : String → String) :
    Option ActiveInfo :=
  match propGet props "ActiveState" with
  | none => none
  | some v =>
    if v == "" then none
    else
      some ⟨v, orTruthy (propGet props "SubState") "",
        orTruthy (propGet props "ActiveEnterTimestamp") "",
        calculateDuration cd (propGet props "ActiveEnterTimestamp")⟩

/-- The `mainPid` enrichment from `systemctl show` (systemctl.ts 253-258). -/
def mainPidFromShow (props : List (String × String)) : Option MainPidInfo :=
  match propGet props "MainPID" with
  | none => none
  | some v =>
    if v == "" || v == "0" then none
    else
      some ⟨jsParseInt v,
        if isTruthyOpt (propGet props "ExecMainStartTimestamp") then
          extractCommand (orTruthy (propGet props "ExecStart") "")
        else "unknown"⟩

/-- The `memory` enrichment from `systemctl show` (systemctl.ts 261-273);
`"NaN"` renders the `formatBytes(NaN)` of a non-numeric value. -/
def memoryFromShow (props : List (String × String)) : Option MemoryInfo :=
  match propGet props "MemoryCurrent" with
  | none => none
  | some v =>
    if v == "" || v == "[not set]" then none
    else
      let mb := jsParseInt v
      let cur := match mb with
        | some n => formatBytes n
        | none => "NaN"
      match propGet props "MemoryPeak" with
      | none => some ⟨cur, none, mb, none⟩
      | some pv =>
        if pv == "" || pv == "[not set]" then some ⟨cur, none, mb, none⟩
        else
          let pb := jsParseInt pv
          some ⟨cur,
            some (match pb with | some n => formatBytes n | none => "NaN"), mb, pb⟩

/-- The `cpu` enrichment from `systemctl show` (systemctl.ts 276-282). -/
def cpuFromShow (props : List (String × String)) : Option CpuInfo :=
  match propGet props "CPUUsageNSec" with
  | none => none
  | some v =>
    if v == "" || v == "[not set]" then none
    else
      let nb := jsParseInt v
      some ⟨(match nb with | some n => formatCPUTime n | none => "NaN"), nb⟩

/-- The `tasks` enrichment from `systemctl show` (systemctl.ts 285-290);
`parseInt(x) || 0` maps `NaN` to 0, `infinity` becomes limit 0. -/
def tasksFromShow (props : List (String × String)) : Option TasksInfo :=
  match propGet props "TasksCurrent", propGet props "TasksMax" with
  | some tc, some tm =>
    if tc == "" || tm == "" then none
    else
      some ⟨(jsParseInt tc).getD 0,
        if tm == "infinity" then 0 else (jsParseInt tm).getD 0⟩
  | _, _ => none

/-- The minimal normalized structure the outer `catch` returns
(systemctl.ts 307-313). -/
def minimalStatus (appName : String) : SystemctlProcess :=
  ⟨appName, "unknown", false, "LiteShift app: " ++ appName, "node",
    none, none, none, none, none, none, none, none⟩

/-- Assembling the result (systemctl.ts 225-303): the base record from the
`show` properties, then the detailed-status merge — `loaded`, `active`,
`mainPid`, `tasks`, `cpu`, `cgroup` replaced when the detail parse set them
(spreads whose right side carries every key, or direct assignment), the
`memory` spread keeping a previously-parsed peak when the detail has none. -/
def buildStatus (appName statusTrim : String) (enabled : Bool)
    (props : List (String × String)) (det : Option StatusPartial)
    (cd : String → String) : SystemctlProcess :=
  let base : SystemctlProcess :=
    ⟨appName,
      (if statusTrim == "" then "unknown" else statusTrim),
      enabled,
      orTruthy (propGet props "Description") ("LiteShift app: " ++ appName),
      detectRuntime (orTruthy (propGet props "ExecStart") ""),
      propGet props "WorkingDirectory",
      loadedFromShow props enabled,
      activeFromShow props cd,
      mainPidFromShow props,
      tasksFromShow props,
      memoryFromShow props,
      cpuFromShow props,
      none⟩
  match det with
  | none => base
  | some d =>
    { base with
      loaded := (match d.loaded with | some dl => some dl | none => base.loaded),
      active := (match d.active with | some da => some da | none => base.active),
      mainPid := (match d.mainPid with | some dp => some dp | none => base.mainPid),
      tasks := (match d.tasks with | some dt => some dt | none => base.tasks),
      memory := (match d.memory with
        | some dm =>
          some (match base.memory with
            | some bm =>
              ⟨dm.current,
                (match dm.peak with | some p => some p | none => bm.peak),
                dm.currentBytes,
                (match dm.peakBytes with | some p => some p | none => bm.peakBytes)⟩
            | none => dm)
        | none => base.memory),
      cpu := (match d.cpu with | some dc => some dc | none => base.cpu),
      cgroup := (match d.cgroup with | some dg => some dg | none => base.cgroup) }

/-- The fallible body of `getStatus` (systemctl.ts 203-303): the three
commands whose failure reaches the outer `catch`, the `show` parse, and the
separately-guarded detailed status. -/
def getStatusBody (appName : String)
    (isActiveRes isEnabledRes showRes statusRes : Except String String)
    (cd : String → String) : Except String SystemctlProcess := do
  let actOut ← isActiveRes
  let enOut ← isEnabledRes
  let showOut ← showRes
  let props := parseSystemctlShow showOut
  let det : Option StatusPartial :=
    match statusRes with
    | Except.ok out => some (parseSystemctlStatus out)
    | Except.error _ => none
  pure (buildStatus appName (jsTrim actOut) (jsTrim enOut == "enabled") props det cd)

/-- `getStatus` (systemctl.ts 200-315): the body wrapped in the
`try`/`catch` returning the minimal structure. -/
def getStatus (appName : String)
    (isActiveRes isEnabledRes showRes statusRes : Except String String)
    (cd : String → String) : SystemctlProcess :=
  match getStatusBody appName isActiveRes isEnabledRes showRes statusRes cd with
  | Except.ok r => r
  | Except.error _ => minimalStatus appName

theorem stepLoaded_memory (acc : StatusPartial) (t : String) :
    (stepLoaded acc t).memory = acc.memory := by
  unfold stepLoaded; cases lineLoaded t <;> rfl

theorem stepLoaded_cpu (acc : StatusPartial) (t : String) :
    (stepLoaded acc t).cpu = acc.cpu := by
  unfold stepLoaded; cases lineLoaded t <;> rfl

theorem stepLoaded_tasks (acc : StatusPartial) (t : String) :
    (stepLoaded acc t).tasks = acc.tasks := by
  unfold stepLoaded; cases lineLoaded t <;> rfl

theorem stepLoaded_mainPid (acc : StatusPartial) (t : String) :
    (stepLoaded acc t).mainPid = acc.mainPid := by
  unfold stepLoaded; cases lineLoaded t <;> rfl

theorem stepLoaded_cgroup (acc : StatusPartial) (t : String) :
    (stepLoaded acc t).cgroup = acc.cgroup := by
  unfold stepLoaded; cases lineLoaded t <;> rfl

theorem stepActive_memory (acc : StatusPartial) (t : String) :
    (stepActive acc t).memory = acc.memory := by
  unfold stepActive; cases lineActive t <;> rfl

theorem stepActive_cpu (acc : StatusPartial) (t : String) :
    (stepActive acc t).cpu = acc.cpu := by
  unfold stepActive; cases lineActive t <;> rfl

theorem stepActive_tasks (acc : StatusPartial) (t : String) :
    (stepActive acc t).tasks = acc.tasks := by
  unfold stepActive; cases lineActive t <;> rfl

theorem stepActive_mainPid (acc : StatusPartial) (t : String) :
    (stepActive acc t).mainPid = acc.mainPid := by
  unfold stepActive; cases lineActive t <;> rfl

theorem stepActive_cgroup (acc : StatusPartial) (t : String) :
    (stepActive acc t).cgroup = acc.cgroup := by
  unfold stepActive; cases lineActive t <;> rfl

theorem stepMainPid_memory (acc : StatusPartial) (t : String) :
    (stepMainPid acc t).memory = acc.memory := by
  unfold stepMainPid; cases lineMainPid t <;> rfl

theorem stepMainPid_cpu (acc : StatusPartial) (t : String) :
    (stepMainPid acc t).cpu = acc.cpu := by
  unfold stepMainPid; cases lineMainPid t <;> rfl

theorem stepMainPid_tasks (acc : StatusPartial) (t : String) :
    (stepMainPid acc t).tasks = acc.tasks := by
  unfold stepMainPid; cases lineMainPid t <;> rfl

theorem stepMainPid_cgroup (acc : StatusPartial) (t : String) :
    (stepMainPid acc t).cgroup = acc.cgroup := by
  unfold stepMainPid; cases lineMainPid t <;> rfl

theorem stepMainPid_none (acc : StatusPartial) (t : String) (h : lineMainPid t = none) :
    (stepMainPid acc t).mainPid = acc.mainPid := by
  unfold stepMainPid; rw [h]

theorem stepTasks_memory (acc : StatusPartial) (t : String) :
    (stepTasks acc t).memory = acc.memory := by
  unfold stepTasks; cases lineTasks t <;> rfl

theorem stepTasks_cpu (acc : StatusPartial) (t : String) :
    (stepTasks acc t).cpu = acc.cpu := by
  unfold stepTasks; cases lineTasks t <;> rfl

theorem stepTasks_mainPid (acc : StatusPartial) (t : String) :
    (stepTasks acc t).mainPid = acc.mainPid := by
  unfold stepTasks; cases lineTasks t <;> rfl

theorem stepTasks_cgroup (acc : StatusPartial) (t : String) :
    (stepTasks acc t).cgroup = acc.cgroup := by
  unfold stepTasks; cases lineTasks t <;> rfl

theorem stepTasks_none (acc : StatusPartial) (t : String) (h : lineTasks t = none) :
    (stepTasks acc t).tasks = acc.tasks := by
  unfold stepTasks; rw [h]

theorem stepMemory_cpu (acc : StatusPartial) (t : String) :
    (stepMemory acc t).cpu = acc.cpu := by
  unfold stepMemory; cases lineMemory t <;> rfl

theorem stepMemory_tasks (acc : StatusPartial) (t : String) :
    (stepMemory acc t).tasks = acc.tasks := by
  unfold stepMemory; cases lineMemory t <;> rfl

theorem stepMemory_mainPid (acc : StatusPartial) (t : String) :
    (stepMemory acc t).mainPid = acc.mainPid := by
  unfold stepMemory; cases lineMemory t <;> rfl

theorem stepMemory_cgroup (acc : StatusPartial) (t : String) :
    (stepMemory acc t).cgroup = acc.cgroup := by
  unfold stepMemory; cases lineMemory t <;> rfl

theorem stepMemory_none (acc : StatusPartial) (t : String) (h : lineMemory t = none) :
    (stepMemory acc t).memory = acc.memory := by
  unfold stepMemory; rw [h]

theorem stepCpu_memory (acc : StatusPartial) (t : String) :
    (stepCpu acc t).memory = acc.memory := by
  unfold stepCpu; cases lineCpu t <;> rfl

theorem stepCpu_tasks (acc : StatusPartial) (t : String) :
    (stepCpu acc t).tasks = acc.tasks := by
  unfold stepCpu; cases lineCpu t <;> rfl

theorem stepCpu_mainPid (acc : StatusPartial) (t : String) :
    (stepCpu acc t).mainPid = acc.mainPid := by
  unfold stepCpu; cases lineCpu t <;> rfl

theorem stepCpu_cgroup (acc : StatusPartial) (t : String) :
    (stepCpu acc t).cgroup = acc.cgroup := by
  unfold stepCpu; cases lineCpu t <;> rfl

theorem stepCpu_none (acc : StatusPartial) (t : String) (h : lineCpu t = none) :
    (stepCpu acc t).cpu = acc.cpu := by
  unfold stepCpu; rw [h]

theorem stepCgroup_memory (acc : StatusPartial) (t : String) :
    (stepCgroup acc t).memory = acc.memory := by
  unfold stepCgroup
  split
  · cases searchP matchCgroupProc t.data <;> rfl
  · rfl

theorem stepCgroup_cpu (acc : StatusPartial) (t : String) :
    (stepCgroup acc t).cpu = acc.cpu := by
  unfold stepCgroup
  split
  · cases searchP matchCgroupProc t.data <;> rfl
  · rfl

theorem stepCgroup_tasks (acc : StatusPartial) (t : String) :
    (stepCgroup acc t).tasks = acc.tasks := by
  unfold stepCgroup
  split
  · cases searchP matchCgroupProc t.data <;> rfl
  · rfl

theorem stepCgroup_mainPid (acc : StatusPartial) (t : String) :
    (stepCgroup acc t).mainPid = acc.mainPid := by
  unfold stepCgroup
  split
  · cases searchP matchCgroupProc t.data <;> rfl
  · rfl

theorem stepCgroup_none (acc : StatusPartial) (t : String)
    (h : (strStartsWith t "├─" || strStartsWith t "└─") = false) :
    (stepCgroup acc t).cgroup = acc.cgroup := by
  unfold stepCgroup
  rw [h]
  rfl

theorem statusStep_memory (acc : StatusPartial) (l : String)
    (h : lineMemory (jsTrim l) = none) :
    (statusStep acc l).memory = acc.memory := by
  unfold statusStep
  rw [stepCgroup_memory, stepCpu_memory, stepMemory_none _ _ h, stepTasks_memory,
    stepMainPid_memory, stepActive_memory, stepLoaded_memory]

theorem statusStep_cpu (acc : StatusPartial) (l : String)
    (h : lineCpu (jsTrim l) = none) :
    (statusStep acc l).cpu = acc.cpu := by
  unfold statusStep
  rw [stepCgroup_cpu, stepCpu_none _ _ h, stepMemory_cpu, stepTasks_cpu,
    stepMainPid_cpu, stepActive_cpu, stepLoaded_cpu]

theorem statusStep_tasks (acc : StatusPartial) (l : String)
    (h : lineTasks (jsTrim l) = none) :
    (statusStep acc l).tasks = acc.tasks := by
  unfold statusStep
  rw [stepCgroup_tasks, stepCpu_tasks, stepMemory_tasks, stepTasks_none _ _ h,
    stepMainPid_tasks, stepActive_tasks, stepLoaded_tasks]

theorem statusStep_mainPid (acc : StatusPartial) (l : String)
    (h : lineMainPid (jsTrim l) = none) :
    (statusStep acc l).mainPid = acc.mainPid := by
  unfold statusStep
  rw [stepCgroup_mainPid, stepCpu_mainPid, stepMemory_mainPid, stepTasks_mainPid,
    stepMainPid_none _ _ h, stepActive_mainPid, stepLoaded_mainPid]

theorem statusStep_cgroup (acc : StatusPartial) (l : String)
    (h : (strStartsWith (jsTrim l) "├─" || strStartsWith (jsTrim l) "└─") = false) :
    (statusStep acc l).cgroup = acc.cgroup := by
  unfold statusStep
  rw [stepCgroup_none _ _ h, stepCpu_cgroup, stepMemory_cgroup, stepTasks_cgroup,
    stepMainPid_cgroup, stepActive_cgroup, stepLoaded_cgroup]

theorem foldl_statusStep_memory (lines : List String) : ∀ acc : StatusPartial,
    acc.memory = none → (∀ l ∈ lines, lineMemory (jsTrim l) = none) →
    (lines.foldl statusStep acc).memory = none := by
  induction lines with
  | nil => intro acc h _; exact h
  | cons l t ih =>
    intro acc h hall
    rw [List.foldl_cons]
    refine ih _ ?_ fun x hx => hall x (List.mem_cons_of_mem l hx)
    rw [statusStep_memory acc l (hall l (List.mem_cons_self l t))]
    exact h

theorem foldl_statusStep_cpu (lines : List String) : ∀ acc : StatusPartial,
    acc.cpu = none → (∀ l ∈ lines, lineCpu (jsTrim l) = none) →
    (lines.foldl statusStep acc).cpu = none := by
  induction lines with
  | nil => intro acc h _; exact h
  | cons l t ih =>
    intro acc h hall
    rw [List.foldl_cons]
    refine ih _ ?_ fun x hx => hall x (List.mem_cons_of_mem l hx)
    rw [statusStep_cpu acc l (hall l (List.mem_cons_self l t))]
    exact h

theorem foldl_statusStep_tasks (lines : List String) : ∀ acc : StatusPartial,
    acc.tasks = none → (∀ l ∈ lines, lineTasks (jsTrim l) = none) →
    (lines.foldl statusStep acc).tasks = none := by
  induction lines with
  | nil => intro acc h _; exact h
  | cons l t ih =>
    intro acc h hall
    rw [List.foldl_cons]
    refine ih _ ?_ fun x hx => hall x (List.mem_cons_of_mem l hx)
    rw [statusStep_tasks acc l (hall l (List.mem_cons_self l t))]
    exact h

theorem foldl_statusStep_mainPid (lines : List String) : ∀ acc : StatusPartial,
    acc.mainPid = none → (∀ l ∈ lines, lineMainPid (jsTrim l) = none) →
    (lines.foldl statusStep acc).mainPid = none := by
  induction lines with
  | nil => intro acc h _; exact h
  | cons l t ih =>
    intro acc h hall
    rw [List.foldl_cons]
    refine ih _ ?_ fun x hx => hall x (List.mem_cons_of_mem l hx)
    rw [statusStep_mainPid acc l (hall l (List.mem_cons_self l t))]
    exact h

theorem foldl_statusStep_cgroup (lines : List String) : ∀ acc : StatusPartial,
    acc.cgroup = none →
    (∀ l ∈ lines, (strStartsWith (jsTrim l) "├─" || strStartsWith (jsTrim l) "└─") = false) →
    (lines.foldl statusStep acc).cgroup = none := by
  induction lines with
  | nil => intro acc h _; exact h
  | cons l t ih =>
    intro acc h hall
    rw [List.foldl_cons]
    refine ih _ ?_ fun x hx => hall x (List.mem_cons_of_mem l hx)
    rw [statusStep_cgroup acc l (hall l (List.mem_cons_self l t))]
    exact h

theorem parseStatus_memory_none (out : String)
    (h : ∀ l ∈ jsSplit '\n' out, lineMemory (jsTrim l) = none) :
    (parseSystemctlStatus out).memory = none :=
  foldl_statusStep_memory _ _ rfl h

theorem parseStatus_cpu_none (out : String)
    (h : ∀ l ∈ jsSplit '\n' out, lineCpu (jsTrim l) = none) :
    (parseSystemctlStatus out).cpu = none :=
  foldl_statusStep_cpu _ _ rfl h

theorem parseStatus_tasks_none (out : String)
    (h : ∀ l ∈ jsSplit '\n' out, lineTasks (jsTrim l) = none) :
    (parseSystemctlStatus out).tasks = none :=
  foldl_statusStep_tasks _ _ rfl h

theorem parseStatus_mainPid_none (out : String)
    (h : ∀ l ∈ jsSplit '\n' out, lineMainPid (jsTrim l) = none) :
    (parseSystemctlStatus out).mainPid = none :=
  foldl_statusStep_mainPid _ _ rfl h

theorem parseStatus_cgroup_none (out : String)
    (h : ∀ l ∈ jsSplit '\n' out,
      (strStartsWith (jsTrim l) "├─" || strStartsWith (jsTrim l) "└─") = false) :
    (parseSystemctlStatus out).cgroup = none :=
  foldl_statusStep_cgroup _ _ rfl h

theorem buildStatus_memory_det (n stt : String) (en : Bool)
    (props : List (String × String)) (d : StatusPartial) (cd : String → String)
    (hd : d.memory = none) :
    (buildStatus n stt en props (some d) cd).memory = memoryFromShow props := by
  simp [buildStatus, hd]

theorem buildStatus_cpu_det (n stt : String) (en : Bool)
    (props : List (String × String)) (d : StatusPartial) (cd : String → String)
    (hd : d.cpu = none) :
    (buildStatus n stt en props (some d) cd).cpu = cpuFromShow props := by
  simp [buildStatus, hd]

theorem buildStatus_tasks_det (n stt : String) (en : Bool)
    (props : List (String × String)) (d : StatusPartial) (cd : String → String)
    (hd : d.tasks = none) :
    (buildStatus n stt en props (some d) cd).tasks = tasksFromShow props := by
  simp [buildStatus, hd]

theorem buildStatus_mainPid_det (n stt : String) (en : Bool)
    (props : List (String × String)) (d : StatusPartial) (cd : String → String)
    (hd : d.mainPid = none) :
    (buildStatus n stt en props (some d) cd).mainPid = mainPidFromShow props := by
  simp [buildStatus, hd]

theorem buildStatus_cgroup_det (n stt : String) (en : Bool)
    (props : List (String × String)) (d : StatusPartial) (cd : String → String)
    (hd : d.cgroup = none) :
    (buildStatus n stt en props (some d) cd).cgroup = none := by
  simp [buildStatus, hd]

theorem getStatus_ok (n actOut enOut sh out : String) (cd : String → String) :
    getStatus n (Except.ok actOut) (Except.ok enOut) (Except.ok sh) (Except.ok out) cd =
      buildStatus n (jsTrim actOut) (jsTrim enOut == "enabled")
        (parseSystemctlShow sh) (some (parseSystemctlStatus out)) cd := rfl

/-- Claim C9: `status(name)` never throws — a failure of the `is-active`,
`is-enabled` or `show` command (any error of the fallible body) is caught
and the minimal normalized structure (name, status `unknown`, enabled
`false`, default description and runtime) is returned; and when an
individual enrichment field (memory, CPU, tasks, main PID, cgroup) can be
parsed neither from the `show` properties nor from any `systemctl status`
line, that field is simply absent while the call still returns. -/
theorem getStatusGracefulDegradation (appName actOut enOut sh out : String)
    (a e s st : Except String String) (cd : String → String) :
    (∀ m, a = Except.error m → getStatus appName a e s st cd = minimalStatus appName) ∧
    (∀ m, e = Except.error m → getStatus appName a e s st cd = minimalStatus appName) ∧
    (∀ m, s = Except.error m → getStatus appName a e s st cd = minimalStatus appName) ∧
    (∀ m, getStatusBody appName a e s st cd = Except.error m →
      getStatus appName a e s st cd = minimalStatus appName) ∧
    ((memoryFromShow (parseSystemctlShow sh) = none ∧
        ∀ l ∈ jsSplit '\n' out, lineMemory (jsTrim l) = none) →
      (getStatus appName (Except.ok actOut) (Except.ok enOut) (Except.ok sh)
          (Except.ok out) cd).memory = none) ∧
    ((cpuFromShow (parseSystemctlShow sh) = none ∧
        ∀ l ∈ jsSplit '\n' out, lineCpu (jsTrim l) = none) →
      (getStatus appName (Except.ok actOut) (Except.ok enOut) (Except.ok sh)
          (Except.ok out) cd).cpu = none) ∧
    ((tasksFromShow (parseSystemctlShow sh) = none ∧
        ∀ l ∈ jsSplit '\n' out, lineTasks (jsTrim l) = none) →
      (getStatus appName (Except.ok actOut) (Except.ok enOut) (Except.ok sh)
          (Except.ok out) cd).tasks = none) ∧
    ((mainPidFromShow (parseSystemctlShow sh) = none ∧
        ∀ l ∈ jsSplit '\n' out, lineMainPid (jsTrim l) = none) →
      (getStatus appName (Except.ok actOut) (Except.ok enOut) (Except.ok sh)
          (Except.ok out) cd).mainPid = none) ∧
    ((∀ l ∈ jsSplit '\n' out,
        (strStartsWith (jsTrim l) "├─" || strStartsWith (jsTrim l) "└─") = false) →
      (getStatus appName (Except.ok actOut) (Except.ok enOut) (Except.ok sh)
          (Except.ok out) cd).cgroup = none) := by
  refine ⟨?_, ?_, ?_, ?_, ?_, ?_, ?_, ?_, ?_⟩
  · intro m hm; subst hm; rfl
  · intro m hm; subst hm; cases a <;> rfl
  · intro m hm; subst hm; cases a <;> cases e <;> rfl
  · intro m hm
    unfold getStatus
    rw [hm]
  · intro h
    rw [getStatus_ok,
      buildStatus_memory_det _ _ _ _ _ _ (parseStatus_memory_none out h.2)]
    exact h.1
  · intro h
    rw [getStatus_ok,
      buildStatus_cpu_det _ _ _ _ _ _ (parseStatus_cpu_none out h.2)]
    exact h.1
  · intro h
    rw [getStatus_ok,
      buildStatus_tasks_det _ _ _ _ _ _ (parseStatus_tasks_none out h.2)]
    exact h.1
  · intro h
    rw [getStatus_ok,
      buildStatus_mainPid_det _ _ _ _ _ _ (parseStatus_mainPid_none out h.2)]
    exact h.1
  · intro h
    rw [getStatus_ok,
      buildStatus_cgroup_det _ _ _ _ _ _ (parseStatus_cgroup_none out h)]

/-- The status parsers do succeed on well-formed systemctl output (the
degradation theorems above are not vacuous). -/
theorem statusParsersParseWellFormedLines :
    lineMemory "Memory: 24.5M (peak: 32.1M)" =
      some ⟨"24.5M", some "32.1M", some 25690112, some 33659290⟩ ∧
    lineTasks "Tasks: 5 (limit: 4915)" = some ⟨5, 4915⟩ ∧
    lineTasks "Tasks: 5 (limit: infinity)" = some ⟨5, 0⟩ ∧
    lineMainPid "Main PID: 1234 (node)" = some ⟨some 1234, "node"⟩ ∧
    lineCpu "CPU: 2.345s" = some ⟨"2.345s", none⟩ := by
  refine ⟨by decide, by decide, by decide, by decide, by decide⟩

/-- Witness for C9: a failing `is-active` command yields the minimal
structure; with empty `show` and `status` outputs every enrichment field is
absent while the call still returns a structure. -/
theorem getStatusGracefulDegradation_witness :
    getStatus "demo" (Except.error "boom") (Except.ok "enabled") (Except.ok "")
        (Except.ok "") (fun _ => "") = minimalStatus "demo" ∧
    (getStatus "demo" (Except.ok "active") (Except.ok "enabled") (Except.ok "")
        (Except.ok "") (fun _ => "")).memory = none ∧
    (getStatus "demo" (Except.ok "active") (Except.ok "enabled") (Except.ok "")
        (Except.ok "") (fun _ => "")).cgroup = none :=
  ⟨(getStatusGracefulDegradation "demo" "active" "enabled" "" ""
      (Except.error "boom") (Except.ok "enabled") (Except.ok "") (Except.ok "")
      (fun _ => "")).1 "boom" rfl,
    (getStatusGracefulDegradation "demo" "active" "enabled" "" ""
      (Except.error "boom") (Except.ok "enabled") (Except.ok "") (Except.ok "")
      (fun _ => "")).2.2.2.2.1 ⟨rfl, by decide⟩,
    (getStatusGracefulDegradation "demo" "active" "enabled" "" ""
      (Except.error "boom") (Except.ok "enabled") (Except.ok "") (Except.ok "")
      (fun _ => "")).2.2.2.2.2.2.2.2 (by decide)⟩

end LiteShift
